import Mathlib

/-!
# Spreadsheet grid, formula evaluator and undo/redo history

A shallow embedding of `src/components/Spreadsheet.jsx`.

* JavaScript numbers are IEEE-754 doubles.  Every finite double is an integer
  multiple of `2^(-1074)`, so a finite double is stored as that integer and all
  arithmetic is exact integer arithmetic followed by one rounding to nearest
  (ties to even), as IEEE-754 prescribes.
* JavaScript strings are Lean strings; the code only ever inspects ASCII
  characters (`=`, `A`-`Z`, `0`-`9`, `:`), on which both agree.
* JavaScript arrays are lists of unbounded length (memory is not modelled).
* One React event handler is one state transition: the handler reads the state
  of the latest render and the next event sees the state it has set.
-/

set_option exponentiation.threshold 4096

namespace Spreadsheet

/-! ## JavaScript numbers -/

/-- A JavaScript number.  `fin k` is the finite double `k * 2^(-1074)` (`fin 0` is `+0`),
`negZero` is `-0`, `inf neg` is `-Infinity` when `neg` and `+Infinity` otherwise. -/
inductive JSNum where
  | nan
  | inf (neg : Bool)
  | negZero
  | fin (k : Int)
  deriving DecidableEq, Repr

/-- The number of units `2^(-1074)` in `1`. -/
abbrev unit : Nat := 2 ^ 1074

/-- The double of an integer that a double holds exactly. -/
def JSNum.ofInt (n : Int) : JSNum := .fin (n * unit)

/-- Binary search for the position of the leading bit: the largest `e` below
`lo + 2^s` with `2^e ≤ k`, given `2^lo ≤ k`. -/
def log2Search (k : Nat) : Nat → Nat → Nat
  | 0, lo => lo
  | s + 1, lo =>
    if 2 ^ (lo + 2 ^ s) ≤ k then log2Search k s (lo + 2 ^ s) else log2Search k s lo

/-- The position of the leading bit of `k`, for `1 ≤ k < 2^4096`. -/
def log2Floor (k : Nat) : Nat := log2Search k 12 0

/-- The integer nearest to `n / d`, a tie going to the even one. -/
def roundHalfEven (n d : Nat) : Nat :=
  let q := n / d
  let r := n % d
  if 2 * r < d then q else if d < 2 * r then q + 1 else if q % 2 = 0 then q else q + 1

/-- IEEE-754 rounding to the nearest double, ties to even.  The exact value has sign
`neg` and magnitude `n / d` units of `2^(-1074)`.  A double has 53 significant bits, so
the quantum is `2^shift` units where `shift` is what the integer part has beyond 53 bits;
a rounded magnitude of `2^1024` (`2^2098` units) or more is an infinity. -/
def roundDouble (neg : Bool) (n d : Nat) : JSNum :=
  if 2 ^ 2098 ≤ n / d then .inf neg
  else
    let shift := log2Floor (n / d) + 1 - 53
    let r := roundHalfEven n (d * 2 ^ shift) * 2 ^ shift
    if 2 ^ 2098 ≤ r then .inf neg
    else if r = 0 then (if neg then .negZero else .fin 0)
    else .fin (if neg then -(r : Int) else (r : Int))

/-- The double nearest to the integer number `k` of units. -/
def roundUnits (k : Int) : JSNum := roundDouble (decide (k < 0)) k.natAbs 1

/-- The sign bit. -/
def JSNum.signBit : JSNum → Bool
  | .nan => false
  | .inf neg => neg
  | .negZero => true
  | .fin k => decide (k < 0)

/-- The magnitude of a finite number, in units. -/
def JSNum.mag : JSNum → Nat
  | .fin k => k.natAbs
  | _ => 0

/-- A zero of the given sign. -/
def JSNum.zero (neg : Bool) : JSNum := if neg then .negZero else .fin 0

/-- JavaScript `a + b`. -/
def jsAdd : JSNum → JSNum → JSNum
  | .nan, _ => .nan
  | _, .nan => .nan
  | .inf a, .inf b => if a = b then .inf a else .nan
  | .inf a, _ => .inf a
  | _, .inf b => .inf b
  | .negZero, .negZero => .negZero
  | .negZero, .fin b => .fin b
  | .fin a, .negZero => .fin a
  | .fin a, .fin b => roundUnits (a + b)

/-- JavaScript `a / b`. -/
def jsDiv : JSNum → JSNum → JSNum
  | .nan, _ => .nan
  | _, .nan => .nan
  | .inf _, .inf _ => .nan
  | .inf a, b => .inf (xor a b.signBit)
  | a, .inf b => JSNum.zero (xor a.signBit b)
  | a, b =>
    if b.mag = 0 then (if a.mag = 0 then .nan else .inf (xor a.signBit b.signBit))
    else if a.mag = 0 then JSNum.zero (xor a.signBit b.signBit)
    else roundDouble (xor a.signBit b.signBit) (a.mag * unit) b.mag

/-- JavaScript `a <= b`. -/
def jsLe : JSNum → JSNum → Bool
  | .nan, _ => false
  | _, .nan => false
  | .inf true, _ => true
  | _, .inf false => true
  | .inf false, _ => false
  | _, .inf true => false
  | .negZero, .negZero => true
  | .negZero, .fin b => decide (0 ≤ b)
  | .fin a, .negZero => decide (a ≤ 0)
  | .fin a, .fin b => decide (a ≤ b)

/-- JavaScript `x || 0` on a number: `NaN`, `+0` and `-0` are falsy. -/
def orZero : JSNum → JSNum
  | .nan => .fin 0
  | .negZero => .fin 0
  | x => x

/-- JavaScript unary minus. -/
def jsNeg : JSNum → JSNum
  | .nan => .nan
  | .inf neg => .inf (!neg)
  | .negZero => .fin 0
  | .fin k => if k = 0 then .negZero else .fin (-k)

/-- JavaScript `a - b`. -/
def jsSub (a b : JSNum) : JSNum := jsAdd a (jsNeg b)

/-- The number `1`. -/
def one : JSNum := .ofInt 1

/-- The array element a number selects as a property key: integers from `0` up (`-0`
is written "0"); any other number names a property an array does not have. -/
def JSNum.toIndex? : JSNum → Option Nat
  | .negZero => some 0
  | .fin k => if 0 ≤ k ∧ k % (unit : Int) = 0 then some (k / (unit : Int)).toNat else none
  | _ => none

/-! ## Strings to numbers -/

/-- White space and line terminators of ECMAScript, which `parseInt` and `parseFloat`
skip at the start of the text. -/
def isWhiteSpace (c : Char) : Bool :=
  let n := c.toNat
  decide (n = 9 ∨ n = 10 ∨ n = 11 ∨ n = 12 ∨ n = 13 ∨ n = 32 ∨ n = 0xA0 ∨ n = 0x1680
    ∨ (0x2000 ≤ n ∧ n ≤ 0x200A) ∨ n = 0x2028 ∨ n = 0x2029 ∨ n = 0x202F ∨ n = 0x205F
    ∨ n = 0x3000 ∨ n = 0xFEFF)

/-- The value of a run of decimal digits. -/
def digitsVal (ds : List Char) : Nat :=
  ds.foldl (fun acc c => 10 * acc + (c.toNat - 48)) 0

/-- The value of one hexadecimal digit, if it is one. -/
def hexDigit? (c : Char) : Option Nat :=
  if c.isDigit then some (c.toNat - 48)
  else if 97 ≤ c.toNat ∧ c.toNat ≤ 102 then some (c.toNat - 87)
  else if 65 ≤ c.toNat ∧ c.toNat ≤ 70 then some (c.toNat - 55)
  else none

/-- The double nearest to `digits * 10^exp`, with the sign `neg`. -/
def roundDecimal (neg : Bool) (digits : Nat) (exp : Int) : JSNum :=
  if 0 ≤ exp then roundDouble neg (digits * 10 ^ exp.toNat * unit) 1
  else roundDouble neg (digits * unit) (10 ^ (-exp).toNat)

/-- An optional sign at the start of a numeric text. -/
def takeSign : List Char → Bool × List Char
  | '-' :: r => (true, r)
  | '+' :: r => (false, r)
  | cs => (false, cs)

/-- The exponent after `e` or `E`: an optional sign and digits; without digits there is
no exponent part and the value is that of exponent `0`. -/
def exponentPart : List Char → Int
  | '-' :: r => -(digitsVal (r.takeWhile Char.isDigit) : Int)
  | '+' :: r => (digitsVal (r.takeWhile Char.isDigit) : Int)
  | r => (digitsVal (r.takeWhile Char.isDigit) : Int)

/-- JavaScript `parseFloat` on a text: leading white space is skipped and the longest
prefix that is a decimal literal (`Infinity`, or digits with an optional fraction and
exponent, after an optional sign) is converted; `NaN` when there is none. -/
def parseFloatChars (text : List Char) : JSNum :=
  let (neg, cs) := takeSign (text.dropWhile isWhiteSpace)
  if "Infinity".toList.isPrefixOf cs then .inf neg
  else
    let ip := cs.takeWhile Char.isDigit
    let r1 := cs.dropWhile Char.isDigit
    let (fp, r2) := match r1 with
      | '.' :: r => (r.takeWhile Char.isDigit, r.dropWhile Char.isDigit)
      | _ => ([], r1)
    if ip.isEmpty ∧ fp.isEmpty then .nan
    else
      let ex : Int := match r2 with
        | 'e' :: r => exponentPart r
        | 'E' :: r => exponentPart r
        | _ => 0
      roundDecimal neg (digitsVal (ip ++ fp)) (ex - fp.length)

/-- JavaScript `parseInt` on a text, without a radix: leading white space is skipped,
then an optional sign, then hexadecimal digits after `0x` or `0X` and decimal digits
otherwise; `NaN` when there is no digit.  The integer read is rounded to the nearest
double. -/
def parseInt (text : List Char) : JSNum :=
  let (neg, cs) := takeSign (text.dropWhile isWhiteSpace)
  let hex (r : List Char) : JSNum :=
    let ds := (r.map hexDigit?).takeWhile Option.isSome
    if ds.isEmpty then .nan
    else roundDouble neg (ds.foldl (fun acc d => 16 * acc + d.getD 0) 0 * unit) 1
  match cs with
  | '0' :: 'x' :: r => hex r
  | '0' :: 'X' :: r => hex r
  | _ =>
    let ds := cs.takeWhile Char.isDigit
    if ds.isEmpty then .nan else roundDouble neg (digitsVal ds * unit) 1

/-! ## Cells and the grid -/

/-- A JavaScript value a cell can hold: a string, a number, or `null` (what a `NaN` or
an infinity comes back as from a JSON snapshot). -/
inductive JSVal where
  | str (s : String)
  | num (n : JSNum)
  | null
  deriving DecidableEq, Repr

/-- A cell `{ value, formula }`. -/
structure Cell where
  value : JSVal
  formula : String
  deriving DecidableEq, Repr

/-- The grid: an array of rows, each an array of cells. -/
abbrev Grid := List (List Cell)

/-- JavaScript `parseFloat(v)`: the argument is first converted to a string.  A finite
number comes back from its own shortest decimal text unchanged, `-0` is written "0",
and "null" and "NaN" hold no number. -/
def parseFloat : JSVal → JSNum
  | .str s => parseFloatChars s.toList
  | .num .negZero => .fin 0
  | .num n => n
  | .null => .nan

/-- JavaScript `s.startsWith(p)`. -/
def startsWith (s p : String) : Bool := p.toList.isPrefixOf s.toList

/-! ## Range references -/

/-- The regular expression `([A-Z]+\d+):([A-Z]+\d+)` tried at the start of `cs`, with
the two captured groups.  `A-Z`, the digits and the colon are disjoint, so the greedy
runs cannot give anything back: each run is the maximal one. -/
def matchRangeAt (cs : List Char) : Option (String × String) :=
  let l1 := cs.takeWhile Char.isUpper
  let r1 := cs.dropWhile Char.isUpper
  let d1 := r1.takeWhile Char.isDigit
  match r1.dropWhile Char.isDigit with
  | ':' :: r3 =>
    let l2 := r3.takeWhile Char.isUpper
    let d2 := (r3.dropWhile Char.isUpper).takeWhile Char.isDigit
    if l1.isEmpty ∨ d1.isEmpty ∨ l2.isEmpty ∨ d2.isEmpty then none
    else some (String.mk (l1 ++ d1), String.mk (l2 ++ d2))
  | _ => none

/-- The search `formula.match(/([A-Z]+\d+):([A-Z]+\d+)/)`: the match at the leftmost
position that has one. -/
def rangeMatch : List Char → Option (String × String)
  | [] => none
  | c :: cs =>
    match matchRangeAt (c :: cs) with
    | some m => some m
    | none => rangeMatch cs

/-- The expression `cell.charCodeAt(0) - 65`: `none` is `NaN` (empty text).  The code
unit of a character beyond the basic plane is its high surrogate. -/
def refCol (cell : String) : Option Int :=
  match cell.toList with
  | [] => none
  | c :: _ =>
    some ((if c.toNat < 0x10000 then c.toNat else 0xD800 + (c.toNat - 0x10000) / 0x400 : Nat) - 65)

/-- The expression `parseInt(cell.slice(1)) - 1`.  After a character beyond the basic
plane the slice starts with its low surrogate, which is no digit. -/
def refRow (cell : String) : JSNum :=
  jsSub (match cell.toList with
    | [] => parseInt []
    | c :: r => if c.toNat < 0x10000 then parseInt r else .nan) one

/-- The columns the inner loop `for (col = startCol; col <= endCol; col++)` visits;
column numbers are small integers, which doubles hold exactly. -/
def colsOf : Option Int → Option Int → List Int
  | some startCol, some endCol =>
    (List.range (endCol - startCol + 1).toNat).map (fun (i : Nat) => startCol + (i : Int))
  | _, _ => []

/-- The outer loop `for (row = startRow; row <= endRow; row++)`, pushing one pair per
column.  `none`: the loop never exits.  That is the case when `row++` no longer changes
`row` (from `2^53` on, where `row + 1` rounds back to `row`) while `row <= endRow`
holds.  The fuel is never used up: the row either moves by one within `±2^53` or stops
moving. -/
def rowLoop (endRow : JSNum) (cols : List Int) :
    Nat → JSNum → List (JSNum × Int) → Option (List (JSNum × Int))
  | 0, _, _ => none
  | fuel + 1, row, cells =>
    if jsLe row endRow then
      if jsAdd row one = row then none
      else rowLoop endRow cols fuel (jsAdd row one) (cells ++ cols.map (fun col => (row, col)))
    else some cells

/-- The function `parseRange(startCell, endCell)`: the `[row, col]` pairs of the
rectangle, row by row; `none` when it never returns. -/
def parseRange (startCell endCell : String) : Option (List (JSNum × Int)) :=
  let startCol := refCol startCell
  let startRow := refRow startCell
  let endCol := refCol endCell
  let endRow := refRow endCell
  rowLoop endRow (colsOf startCol endCol) (2 ^ 55) startRow []

/-! ## Formula evaluation -/

/-- The expression `parseFloat(grid[row][col].value) || 0`; `none` is the `TypeError` of
reading through a row or a cell that does not exist. -/
def cellNumber (grid : Grid) (rc : JSNum × Int) : Option JSNum :=
  match rc.1.toIndex? with
  | none => none
  | some r =>
    match grid[r]? with
    | none => none
    | some cells =>
      if rc.2 < 0 then none
      else
        match cells[rc.2.toNat]? with
        | none => none
        | some cell => some (orZero (parseFloat cell.value))

/-- The expression `values.reduce((a, b) => a + b, 0)`. -/
def sumValues (values : List JSNum) : JSNum := values.foldl jsAdd (.fin 0)

/-- The function `evaluateFormula(formula)` on the grid of the current render.  An
exception inside `try` gives "ERROR"; `none`: the call never returns. -/
def evaluateFormula (grid : Grid) (formula : String) : Option JSVal :=
  if !startsWith formula "=" then some (.str formula)
  else
    match rangeMatch formula.toList with
    | some (startCell, endCell) =>
      match parseRange startCell endCell with
      | none => none
      | some rangeCells =>
        match rangeCells.mapM (cellNumber grid) with
        | none => some (.str "ERROR")
        | some values =>
          if startsWith formula "=SUM" then some (.num (sumValues values))
          else if startsWith formula "=AVERAGE" then
            some (.num (jsDiv (sumValues values) (.ofInt values.length)))
          else some (.str "INVALID")
    | none => some (.str "INVALID")

/-! ## JSON snapshots -/

/-- What JSON can write for a cell's value: a string, a finite number or `null`. -/
inductive JSONValue where
  | str (s : String)
  | num (k : Int)
  | null
  deriving DecidableEq, Repr

/-- The JSON object of a cell. -/
structure JSONCell where
  value : JSONValue
  formula : String
  deriving DecidableEq, Repr

/-- The JSON text of a grid, held as the array of arrays of objects it writes down.
Two texts `JSON.stringify` produces are the same string exactly when they write down
the same arrays. -/
abbrev JSONText := List (List JSONCell)

/-- How `JSON.stringify` writes a value: `NaN` and the infinities as `null`, `-0` as `0`. -/
def JSVal.toJSON : JSVal → JSONValue
  | .str s => .str s
  | .num (.fin k) => .num k
  | .num .negZero => .num 0
  | .num _ => .null
  | .null => .null

/-- The value `JSON.parse` reads back. -/
def JSONValue.toJS : JSONValue → JSVal
  | .str s => .str s
  | .num k => .num (.fin k)
  | .null => .null

/-- The call `JSON.stringify(grid)`. -/
def JSON.stringify (grid : Grid) : JSONText :=
  grid.map (fun cells => cells.map (fun cell => ⟨cell.value.toJSON, cell.formula⟩))

/-- The call `JSON.parse(text)` on the text of a grid. -/
def JSON.parse (text : JSONText) : Grid :=
  text.map (fun cells => cells.map (fun cell => ⟨cell.value.toJS, cell.formula⟩))

/-! ## The component state and its event handlers -/

/-- The state of the `Spreadsheet` component: the five `useState` values and the two
`useRef` stacks.  A stack is a JavaScript array: `push` appends and `pop` takes the last
element. -/
structure State where
  grid : Grid
  selectedCell : Option (Nat × Nat)
  formula : JSVal
  multiSelect : List (Nat × Nat)
  isDragging : Bool
  undoStack : List JSONText
  redoStack : List JSONText
  deriving DecidableEq, Repr

/-- The number of rows of the initial grid. -/
def rows : Nat := 20

/-- The number of columns of the initial grid. -/
def cols : Nat := 10

/-- The state of the first render. -/
def initialState : State where
  grid := List.replicate rows (List.replicate cols ⟨.str "", ""⟩)
  selectedCell := none
  formula := .str ""
  multiSelect := []
  isDragging := false
  undoStack := []
  redoStack := []

/-- The read `grid[row][col]` of an existing cell. -/
def cellAt (grid : Grid) (row col : Nat) : Option Cell :=
  match grid[row]? with
  | none => none
  | some cells => cells[col]?

/-- The statements `const updatedGrid = [...grid]; updatedGrid[row][col] = cell`.
`none`: the row does not exist (a `TypeError`), or the column lies past the end of the
row, where the assignment would grow the row; the rendered cells never ask for either. -/
def setCell (grid : Grid) (row col : Nat) (cell : Cell) : Option Grid :=
  match grid[row]? with
  | none => none
  | some cells => if col < cells.length then some (grid.set row (cells.set col cell)) else none

/-- The function `saveUndoState(currentGrid)`. -/
def saveUndoState (s : State) (currentGrid : Grid) : State :=
  { s with undoStack := s.undoStack ++ [JSON.stringify currentGrid], redoStack := [] }

/-- The handler `handleCellClick(row, col)`.  Reading a cell that does not exist throws
after `setSelectedCell` has been called. -/
def handleCellClick (s : State) (row col : Nat) : State :=
  match cellAt s.grid row col with
  | none => { s with selectedCell := some (row, col) }
  | some cell =>
    { s with
      selectedCell := some (row, col)
      formula := if cell.formula ≠ "" then .str cell.formula else cell.value
      multiSelect := [] }

/-- The handler `handleMouseDown(row, col)`. -/
def handleMouseDown (s : State) (row col : Nat) : State :=
  { s with selectedCell := some (row, col), multiSelect := [(row, col)], isDragging := true }

/-- The handler `handleMouseOver(row, col)`. -/
def handleMouseOver (s : State) (row col : Nat) : State :=
  if s.isDragging then
    { s with
      multiSelect :=
        if s.multiSelect.any (fun sel => sel.1 = row ∧ sel.2 = col) then s.multiSelect
        else s.multiSelect ++ [(row, col)] }
  else s

/-- The handler `handleMouseUp()`. -/
def handleMouseUp (s : State) : State := { s with isDragging := false }

/-- The `onMouseDown` of the drag marker. -/
def dragMarkerMouseDown (s : State) : State := { s with isDragging := true }

/-- The handler `handleFormulaChange(e)` with `e.target.value = text`. -/
def handleFormulaChange (s : State) (text : String) : State := { s with formula := .str text }

/-- The handler `handleCellChange(row, col, value)`; `none`: the write fails (see
`setCell`) and nothing is saved. -/
def handleCellChange (s : State) (row col : Nat) (value : String) : Option State :=
  match setCell s.grid row col ⟨.str value, ""⟩ with
  | none => none
  | some updatedGrid => some (saveUndoState { s with grid := updatedGrid } updatedGrid)

/-- The handler `applyFormula()`.  `none`: the handler does not complete, because the
formula bar holds no string (`startsWith` is not a function), the evaluation never
returns, or the write fails (see `setCell`); nothing is saved then. -/
def applyFormula (s : State) : Option State :=
  match s.selectedCell with
  | none => some s
  | some (row, col) =>
    match s.formula with
    | .str formula =>
      match (if startsWith formula "=" then evaluateFormula s.grid formula
             else some (.str formula)) with
      | none => none
      | some value =>
        match setCell s.grid row col ⟨value, formula⟩ with
        | none => none
        | some updatedGrid => some (saveUndoState { s with grid := updatedGrid } updatedGrid)
    | _ => none

/-- The handler `undo()`. -/
def undo (s : State) : State :=
  match s.undoStack.getLast? with
  | none => s
  | some lastState =>
    { s with
      undoStack := s.undoStack.dropLast
      redoStack := s.redoStack ++ [JSON.stringify s.grid]
      grid := JSON.parse lastState }

/-- The handler `redo()`. -/
def redo (s : State) : State :=
  match s.redoStack.getLast? with
  | none => s
  | some nextState =>
    { s with
      redoStack := s.redoStack.dropLast
      undoStack := s.undoStack ++ [JSON.stringify s.grid]
      grid := JSON.parse nextState }

/-- The value is one JSON writes down exactly: not `NaN`, an infinity or `-0`. -/
def JSVal.jsonExact : JSVal → Bool
  | .num (.fin _) => true
  | .num _ => false
  | _ => true

/-- Every cell value of the grid is one JSON writes down exactly. -/
def Grid.jsonExact (grid : Grid) : Prop :=
  ∀ cells ∈ grid, ∀ cell ∈ cells, cell.value.jsonExact = true

instance (grid : Grid) : Decidable grid.jsonExact := by
  unfold Grid.jsonExact; infer_instance

/-- The state after the text "5" is typed in the first cell. -/
def edited : State := (handleCellChange initialState 0 0 "5").getD initialState

/-- The state after the first cell has been clicked and a text typed in the formula bar. -/
def formulaTyped (text : String) : State :=
  handleFormulaChange (handleCellClick initialState 0 0) text

/-- The state after the text "5" is typed in the first cell and the edit undone. -/
def editedThenUndone : State := undo edited

/-! ## Notions the statements use -/

/-- One or more characters, each of the class `p`. -/
def IsRun (p : Char → Bool) (cs : List Char) : Prop := cs ≠ [] ∧ ∀ c ∈ cs, p c = true

/-- The text contains a range reference as the regular expression reads it: one or more
uppercase letters, one or more digits, a colon, one or more uppercase letters, one or
more digits. -/
def ContainsRange (cs : List Char) : Prop :=
  ∃ pre l1 d1 l2 d2 post, cs = pre ++ (l1 ++ d1 ++ ':' :: (l2 ++ d2)) ++ post
    ∧ IsRun Char.isUpper l1 ∧ IsRun Char.isDigit d1
    ∧ IsRun Char.isUpper l2 ∧ IsRun Char.isDigit d2

/-- The text contains a range reference with one-letter columns: one uppercase letter,
one or more digits, a colon, one uppercase letter, one or more digits. -/
def ContainsSingleLetterRange (cs : List Char) : Prop :=
  ∃ pre a d1 b d2 post, cs = pre ++ (a :: d1 ++ ':' :: b :: d2) ++ post
    ∧ a.isUpper = true ∧ IsRun Char.isDigit d1
    ∧ b.isUpper = true ∧ IsRun Char.isDigit d2

/-- The pair `[row, col]` names a cell that the grid has. -/
def InGrid (grid : Grid) (rc : JSNum × Int) : Prop :=
  ∃ r c : Nat, rc = (JSNum.ofInt r, (c : Int)) ∧ (cellAt grid r c).isSome = true

/-- The grid whose cells hold the given texts as literals, row by row. -/
def gridOf (texts : List (List String)) : Grid :=
  texts.map (fun row => row.map (fun text => ⟨.str text, ""⟩))

/-- The rows `r`, `r + 1`, ... (`n` of them), each with the columns `cols`, as the pairs
`parseRange` pushes. -/
def rowsFrom (r : Int) (n : Nat) (cols : List Int) : List (JSNum × Int) :=
  (List.range n).flatMap
    (fun (i : Nat) => cols.map (fun col => (JSNum.ofInt (r + (i : Int)), col)))

/-- The zero-based coordinates of the rectangle from row number `n1` to row number `n2`
and from column `c1` to column `c2`, row by row. -/
def rectangle (n1 n2 c1 c2 : Nat) : List (Nat × Nat) :=
  (List.range (n2 + 1 - n1)).flatMap
    (fun i => (List.range (c2 + 1 - c1)).map (fun j => (n1 - 1 + i, c1 + j)))

/-- The text is the decimal text of the integer `n`: one or more digits, after a minus
sign when `n` is their value negated. -/
def IsIntegerText (text : String) (n : Int) : Prop :=
  ∃ ds : List Char, IsRun Char.isDigit ds
    ∧ ((text.toList = ds ∧ n = (digitsVal ds : Int))
      ∨ (text.toList = '-' :: ds ∧ n = -(digitsVal ds : Int)))

/-- The value is numeric: `parseFloat` finds a number at its start. -/
def isNumeric (v : JSVal) : Bool := decide (parseFloat v ≠ .nan)

/-- What the cell at a coordinate of the grid contributes to a sum or an average
(`0` where the grid has no cell). -/
def numberAt (grid : Grid) (rc : Nat × Nat) : JSNum :=
  match cellAt grid rc.1 rc.2 with
  | some cell => orZero (parseFloat cell.value)
  | none => .fin 0

/-- The cell at a coordinate of the grid holds a numeric value. -/
def numericAt (grid : Grid) (rc : Nat × Nat) : Bool :=
  match cellAt grid rc.1 rc.2 with
  | some cell => isNumeric cell.value
  | none => false

/-- The states the component reaches: the state of the first render, and the state any
event handler of the component leaves when it completes (saving to and loading from
local storage apart). -/
inductive Reachable : State → Prop where
  | initial : Reachable initialState
  | byCellClick {s : State} (row col : Nat) : Reachable s → Reachable (handleCellClick s row col)
  | byMouseDown {s : State} (row col : Nat) : Reachable s → Reachable (handleMouseDown s row col)
  | byMouseOver {s : State} (row col : Nat) : Reachable s → Reachable (handleMouseOver s row col)
  | byMouseUp {s : State} : Reachable s → Reachable (handleMouseUp s)
  | byDragMarker {s : State} : Reachable s → Reachable (dragMarkerMouseDown s)
  | byFormulaChange {s : State} (text : String) :
      Reachable s → Reachable (handleFormulaChange s text)
  | byCellChange {s s1 : State} (row col : Nat) (value : String) :
      Reachable s → handleCellChange s row col value = some s1 → Reachable s1
  | byApplyFormula {s s1 : State} : Reachable s → applyFormula s = some s1 → Reachable s1
  | byUndo {s : State} : Reachable s → Reachable (undo s)
  | byRedo {s : State} : Reachable s → Reachable (redo s)

/-- An array of `rows` rows of `cols` cells each. -/
def HasShape {α : Type} (grid : List (List α)) : Prop :=
  grid.length = rows ∧ ∀ cells ∈ grid, cells.length = cols

/-- The formula of the cell is empty, begins with "=", or is the literal text that is
the value of the cell as well. -/
def Cell.FormulaOk (cell : Cell) : Prop :=
  cell.formula = "" ∨ startsWith cell.formula "=" = true ∨ cell.value = .str cell.formula

/-- The same, of a cell as a snapshot writes it down. -/
def JSONCell.FormulaOk (cell : JSONCell) : Prop :=
  cell.formula = "" ∨ startsWith cell.formula "=" = true ∨ cell.value = .str cell.formula

/-- The row number a range reference writes after its letters. -/
def refNumber (cell : String) : Nat := digitsVal (cell.toList.dropWhile Char.isUpper)

/-- The grid has a cell at the integer coordinates. -/
def Grid.Has (grid : Grid) (r c : Int) : Prop :=
  0 ≤ r ∧ 0 ≤ c ∧ (cellAt grid r.toNat c.toNat).isSome = true

/-- The state in which A1 holds "1", B1 is selected and "=SUM(A1:A1)" is typed in the
formula bar. -/
def sumTyped : State :=
  handleFormulaChange
    (handleCellClick ((handleCellChange initialState 0 0 "1").getD initialState) 0 1)
    "=SUM(A1:A1)"

/-- The state in which A1 holds "1" and B1 the formula "=SUM(A1:A1)" applied to it. -/
def staleSum : State := (applyFormula sumTyped).getD initialState

/-! ## Exact arithmetic on integers up to `2^53` -/

theorem log2Search_le (k : Nat) : ∀ (s lo : Nat), 2 ^ lo ≤ k → 2 ^ log2Search k s lo ≤ k := by
  intro s
  induction s with
  | zero => intro lo h; simpa [log2Search] using h
  | succ s ih =>
    intro lo h
    unfold log2Search
    split
    · rename_i h'; exact ih _ h'
    · exact ih _ h

theorem log2Search_lt (k : Nat) :
    ∀ (s lo : Nat), k < 2 ^ (lo + 2 ^ s) → k < 2 ^ (log2Search k s lo + 1) := by
  intro s
  induction s with
  | zero => intro lo h; simpa [log2Search] using h
  | succ s ih =>
    intro lo h
    unfold log2Search
    split
    · apply ih
      have e : lo + 2 ^ s + 2 ^ s = lo + 2 ^ (s + 1) := by rw [pow_succ]; omega
      rw [e]; exact h
    · rename_i h'; exact ih _ (Nat.lt_of_not_le h')

theorem log2Floor_le {k : Nat} (h : 1 ≤ k) : 2 ^ log2Floor k ≤ k :=
  log2Search_le k 12 0 (by simpa using h)

theorem log2Floor_lt {k : Nat} (h : k < 2 ^ 2098) : k < 2 ^ (log2Floor k + 1) :=
  log2Search_lt k 12 0 (lt_of_lt_of_le h (Nat.pow_le_pow_right (by norm_num) (by norm_num)))

theorem roundHalfEven_mul (q d : Nat) (hd : 0 < d) : roundHalfEven (q * d) d = q := by
  simp [roundHalfEven, Nat.mul_div_cancel _ hd, hd]

theorem roundDouble_exact (neg : Bool) (k : Nat) (hk : k < 2 ^ 2098)
    (hdiv : 2 ^ (log2Floor k + 1 - 53) ∣ k) :
    roundDouble neg k 1 =
      if k = 0 then JSNum.zero neg else .fin (if neg then -(k : Int) else (k : Int)) := by
  unfold roundDouble
  simp only [Nat.div_one, Nat.one_mul]
  generalize log2Floor k + 1 - 53 = sh at hdiv
  obtain ⟨q, hq⟩ := hdiv
  have hpos : 0 < 2 ^ sh := Nat.pos_pow_of_pos _ (by norm_num)
  have hr : roundHalfEven k (2 ^ sh) * 2 ^ sh = k := by
    have e : k = q * 2 ^ sh := by rw [hq, Nat.mul_comm]
    rw [e, roundHalfEven_mul q _ hpos]
  rw [if_neg (Nat.not_le.mpr hk)]
  simp only [hr]
  rw [if_neg (Nat.not_le.mpr hk)]
  rfl

theorem shift_dvd (m e : Nat) (hm : m ≤ 2 ^ 53) :
    2 ^ (log2Floor (m * 2 ^ e) + 1 - 53) ∣ m * 2 ^ e := by
  rcases Nat.eq_zero_or_pos m with rfl | hpos
  · simp
  have hk : 1 ≤ m * 2 ^ e := Nat.mul_pos hpos (Nat.pos_pow_of_pos _ (by norm_num))
  have hL := log2Floor_le hk
  generalize log2Floor (m * 2 ^ e) = L at hL
  have hub : m * 2 ^ e ≤ 2 ^ (53 + e) := by
    rw [pow_add]; exact Nat.mul_le_mul_right _ hm
  have hLe : L ≤ 53 + e := by
    by_contra hc
    have : 2 ^ (53 + e + 1) ≤ 2 ^ L := Nat.pow_le_pow_right (by norm_num) (by omega)
    have : 2 ^ (53 + e) < 2 ^ (53 + e + 1) := Nat.pow_lt_pow_right (by norm_num) (by omega)
    omega
  rcases Nat.lt_or_ge (L + 1 - 53) (e + 1) with h1 | h1
  · exact Dvd.dvd.mul_left (Nat.pow_dvd_pow 2 (by omega)) m
  · have hLeq : L = 53 + e := by omega
    subst hLeq
    have hm2 : m * 2 ^ e = 2 ^ (53 + e) := le_antisymm hub hL
    rw [hm2]
    exact Nat.pow_dvd_pow 2 (by omega)


theorem unit_pos : 0 < unit := Nat.pos_pow_of_pos _ (by norm_num)

theorem roundUnits_ofInt (n : Int) (h : n.natAbs ≤ 2 ^ 53) :
    roundUnits (n * (unit : Nat)) = .ofInt n := by
  have habs : (n * ((unit : Nat) : Int)).natAbs = n.natAbs * 2 ^ 1074 := by
    rw [Int.natAbs_mul, Int.natAbs_ofNat]
  have hk : n.natAbs * 2 ^ 1074 < 2 ^ 2098 := by
    calc n.natAbs * 2 ^ 1074 ≤ 2 ^ 53 * 2 ^ 1074 := Nat.mul_le_mul_right _ h
      _ < 2 ^ 2098 := by rw [← pow_add]; exact Nat.pow_lt_pow_right (by norm_num) (by norm_num)
  unfold roundUnits
  rw [habs, roundDouble_exact _ _ hk (shift_dvd _ _ h)]
  have hup : (0 : Int) < ((unit : Nat) : Int) := by exact_mod_cast unit_pos
  rcases lt_trichotomy n 0 with hn | hn | hn
  · have h1 : n * ((unit : Nat) : Int) < 0 := Int.mul_neg_of_neg_of_pos hn hup
    have h2 : n.natAbs * 2 ^ 1074 ≠ 0 := by
      have : 0 < n.natAbs := Int.natAbs_pos.mpr (ne_of_lt hn)
      positivity
    rw [if_neg h2]
    simp only [h1, decide_True, if_true, JSNum.ofInt]
    congr 1
    rw [← habs, Int.ofNat_natAbs_of_nonpos (le_of_lt h1)]
    ring
  · subst hn
    simp [JSNum.zero, JSNum.ofInt]
  · have h1 : ¬ n * ((unit : Nat) : Int) < 0 := not_lt.mpr (le_of_lt (Int.mul_pos hn hup))
    have h2 : n.natAbs * 2 ^ 1074 ≠ 0 := by
      have : 0 < n.natAbs := Int.natAbs_pos.mpr (ne_of_gt hn)
      positivity
    rw [if_neg h2]
    simp only [h1, decide_False, JSNum.ofInt]
    congr 1
    rw [← habs]
    exact Int.natAbs_of_nonneg (le_of_lt (Int.mul_pos hn hup))

theorem jsAdd_ofInt (a b : Int) (h : (a + b).natAbs ≤ 2 ^ 53) :
    jsAdd (.ofInt a) (.ofInt b) = .ofInt (a + b) := by
  show roundUnits (a * (unit : Nat) + b * (unit : Nat)) = _
  rw [← add_mul]
  exact roundUnits_ofInt _ h

theorem jsSub_ofInt_one (a : Int) (h : (a - 1).natAbs ≤ 2 ^ 53) :
    jsSub (.ofInt a) one = .ofInt (a - 1) := by
  have hne : (1 : Int) * ((unit : Nat) : Int) ≠ 0 := by
    have := unit_pos
    simp only [one_mul, ne_eq, Int.natCast_eq_zero]
    omega
  unfold jsSub one
  simp only [JSNum.ofInt, jsNeg, if_neg hne]
  show roundUnits (a * (unit : Nat) + -(1 * (unit : Nat))) = _
  have e : a * ((unit : Nat) : Int) + -(1 * ((unit : Nat) : Int)) = (a - 1) * ((unit : Nat) : Int) := by
    ring
  rw [e]
  exact roundUnits_ofInt _ h

theorem ofInt_injective {a b : Int} (h : JSNum.ofInt a = JSNum.ofInt b) : a = b := by
  have hup : ((unit : Nat) : Int) ≠ 0 := by
    have := unit_pos
    simp only [ne_eq, Int.natCast_eq_zero]; omega
  simp only [JSNum.ofInt, JSNum.fin.injEq] at h
  exact Int.eq_of_mul_eq_mul_right hup h

theorem jsLe_ofInt (a b : Int) : jsLe (.ofInt a) (.ofInt b) = decide (a ≤ b) := by
  have hup : (0 : Int) < ((unit : Nat) : Int) := by exact_mod_cast unit_pos
  simp only [JSNum.ofInt, jsLe]
  congr 1
  exact propext (mul_le_mul_right hup)


theorem toNat_of_isDigit {c : Char} (h : c.isDigit = true) : 48 ≤ c.toNat ∧ c.toNat ≤ 57 := by
  simp only [Char.isDigit, Bool.and_eq_true, decide_eq_true_eq] at h
  obtain ⟨h1, h2⟩ := h
  have h1' : (48 : UInt32).toNat ≤ c.val.toNat := h1
  have h2' : c.val.toNat ≤ (57 : UInt32).toNat := h2
  exact ⟨h1', h2'⟩

theorem toNat_of_isUpper {c : Char} (h : c.isUpper = true) : 65 ≤ c.toNat ∧ c.toNat ≤ 90 := by
  simp only [Char.isUpper, Bool.and_eq_true, decide_eq_true_eq] at h
  obtain ⟨h1, h2⟩ := h
  have h1' : (65 : UInt32).toNat ≤ c.val.toNat := h1
  have h2' : c.val.toNat ≤ (90 : UInt32).toNat := h2
  exact ⟨h1', h2'⟩

theorem not_isWhiteSpace_of_isDigit {c : Char} (h : c.isDigit = true) : isWhiteSpace c = false := by
  have := toNat_of_isDigit h
  simp only [isWhiteSpace, decide_eq_false_iff_not]
  omega

theorem takeSign_of_isDigit {c : Char} (cs : List Char) (h : c.isDigit = true) :
    takeSign (c :: cs) = (false, c :: cs) := by
  have h1 : c ≠ '-' := by rintro rfl; exact absurd h (by decide)
  have h2 : c ≠ '+' := by rintro rfl; exact absurd h (by decide)
  unfold takeSign
  split
  · rename_i heq; simp only [List.cons.injEq] at heq; exact absurd heq.1 h1
  · rename_i heq; simp only [List.cons.injEq] at heq; exact absurd heq.1 h2
  · rfl

theorem parseInt_digits {ds : List Char} (hrun : IsRun Char.isDigit ds) :
    parseInt ds = roundDouble false (digitsVal ds * unit) 1 := by
  obtain ⟨hne, hall⟩ := hrun
  cases ds with
  | nil => exact absurd rfl hne
  | cons c cs =>
    have hc := hall c (List.mem_cons_self _ _)
    have htw : (c :: cs).takeWhile Char.isDigit = c :: cs :=
      List.takeWhile_eq_self_iff.mpr hall
    unfold parseInt
    have hdw : (c :: cs).dropWhile isWhiteSpace = c :: cs := by
      simp [List.dropWhile, not_isWhiteSpace_of_isDigit hc]
    rw [hdw, takeSign_of_isDigit cs hc]
    simp only
    split
    · rename_i r heq
      simp only [List.cons.injEq] at heq
      exact absurd (hall 'x' (by rw [heq.2]; simp)) (by decide)
    · rename_i r heq
      simp only [List.cons.injEq] at heq
      exact absurd (hall 'X' (by rw [heq.2]; simp)) (by decide)
    · rw [htw]; simp

theorem parseInt_digits_exact {ds : List Char} (hrun : IsRun Char.isDigit ds)
    (h : digitsVal ds ≤ 2 ^ 53) : parseInt ds = .ofInt (digitsVal ds) := by
  rw [parseInt_digits hrun]
  have := roundUnits_ofInt (digitsVal ds : Int) (by simpa using h)
  unfold roundUnits at this
  have hnn : ¬ ((digitsVal ds : Int) * ((unit : Nat) : Int) < 0) := not_lt.mpr (by positivity)
  simp only [hnn, decide_False] at this
  rw [← this]
  congr 1

theorem refRow_exact {L : Char} {ds : List Char} (hL : L.isUpper = true)
    (hrun : IsRun Char.isDigit ds) (h : digitsVal ds ≤ 2 ^ 53) :
    refRow (String.mk (L :: ds)) = .ofInt ((digitsVal ds : Int) - 1) := by
  have hlt : L.toNat < 0x10000 := by have := toNat_of_isUpper hL; omega
  unfold refRow
  simp only [String.toList, hlt, if_true]
  rw [parseInt_digits_exact hrun h]
  apply jsSub_ofInt_one
  omega

theorem refCol_exact {L : Char} (ds : List Char) (hL : L.isUpper = true) :
    refCol (String.mk (L :: ds)) = some ((L.toNat : Int) - 65) := by
  have hlt : L.toNat < 0x10000 := by have := toNat_of_isUpper hL; omega
  simp [refCol, String.toList, hlt]


/-! ## The rectangle `parseRange` lists -/

theorem rowsFrom_succ (r : Int) (n : Nat) (cols : List Int) :
    rowsFrom r (n + 1) cols
      = cols.map (fun col => (JSNum.ofInt r, col)) ++ rowsFrom (r + 1) n cols := by
  unfold rowsFrom
  rw [List.range_succ_eq_map, List.flatMap_cons, List.flatMap_map]
  congr 1
  · simp
  · apply congrArg
    funext i
    show List.map _ cols = List.map _ cols
    congr 1
    funext col
    congr 2
    push_cast
    ring

theorem rowLoop_exact (e : Int) (cols : List Int) (he : e + 1 ≤ 2 ^ 53) :
    ∀ (n : Nat) (r : Int) (fuel : Nat) (acc : List (JSNum × Int)),
      (e + 1 - r).toNat = n → -(2 ^ 53) ≤ r → n < fuel →
      rowLoop (.ofInt e) cols fuel (.ofInt r) acc = some (acc ++ rowsFrom r n cols) := by
  intro n
  induction n with
  | zero =>
    intro r fuel acc hn _ hfuel
    obtain ⟨f, rfl⟩ : ∃ f, fuel = f + 1 := ⟨fuel - 1, by omega⟩
    have hlt : ¬ r ≤ e := by omega
    unfold rowLoop
    rw [jsLe_ofInt]
    simp [hlt, rowsFrom]
  | succ n ih =>
    intro r fuel acc hn hr hfuel
    obtain ⟨f, rfl⟩ : ∃ f, fuel = f + 1 := ⟨fuel - 1, by omega⟩
    have hle : r ≤ e := by omega
    have hadd : jsAdd (.ofInt r) one = .ofInt (r + 1) := by
      apply jsAdd_ofInt
      omega
    have hne : JSNum.ofInt (r + 1) ≠ JSNum.ofInt r := by
      intro h
      have := ofInt_injective h
      omega
    unfold rowLoop
    rw [jsLe_ofInt, hadd]
    simp only [hle, decide_True, if_true, if_neg hne]
    rw [ih (r + 1) f _ (by omega) (by omega) (by omega), rowsFrom_succ, List.append_assoc]

theorem parseRange_exact {L1 L2 : Char} {ds1 ds2 : List Char}
    (hL1 : L1.isUpper = true) (hL2 : L2.isUpper = true)
    (hd1 : IsRun Char.isDigit ds1) (hd2 : IsRun Char.isDigit ds2)
    (h1 : digitsVal ds1 ≤ 2 ^ 53) (h2 : digitsVal ds2 ≤ 2 ^ 53) :
    parseRange (String.mk (L1 :: ds1)) (String.mk (L2 :: ds2))
      = some (rowsFrom ((digitsVal ds1 : Int) - 1)
          ((digitsVal ds2 : Int) - 1 + 1 - ((digitsVal ds1 : Int) - 1)).toNat
          (colsOf (some ((L1.toNat : Int) - 65)) (some ((L2.toNat : Int) - 65)))) := by
  unfold parseRange
  simp only [refCol_exact _ hL1, refCol_exact _ hL2, refRow_exact hL1 hd1 h1,
    refRow_exact hL2 hd2 h2]
  have := rowLoop_exact ((digitsVal ds2 : Int) - 1)
    (colsOf (some ((L1.toNat : Int) - 65)) (some ((L2.toNat : Int) - 65)))
    (by have : ((digitsVal ds2 : Nat) : Int) ≤ 2 ^ 53 := by exact_mod_cast h2
        omega)
    _ ((digitsVal ds1 : Int) - 1) (2 ^ 55) [] rfl (by omega)
    (by
      have : ((digitsVal ds2 : Nat) : Int) ≤ 2 ^ 53 := by exact_mod_cast h2
      have h55 : (2 : Nat) ^ 55 = 36028797018963968 := by norm_num
      have h53 : (2 : Int) ^ 53 = 9007199254740992 := by norm_num
      omega)
  simpa using this

theorem rowsFrom_eq_rectangle {L1 L2 : Char} (n1 n2 : Nat)
    (hL1 : L1.isUpper = true) (hL2 : L2.isUpper = true) (hn1 : 1 ≤ n1) :
    rowsFrom ((n1 : Int) - 1) ((n2 : Int) - 1 + 1 - ((n1 : Int) - 1)).toNat
        (colsOf (some ((L1.toNat : Int) - 65)) (some ((L2.toNat : Int) - 65)))
      = (rectangle n1 n2 (L1.toNat - 65) (L2.toNat - 65)).map
          (fun rc => (JSNum.ofInt (rc.1 : Nat), ((rc.2 : Nat) : Int))) := by
  have u1 := toNat_of_isUpper hL1
  have u2 := toNat_of_isUpper hL2
  have e1 : ((n2 : Int) - 1 + 1 - ((n1 : Int) - 1)).toNat = n2 + 1 - n1 := by omega
  have e2 : ((L2.toNat : Int) - 65 - ((L1.toNat : Int) - 65) + 1).toNat
      = L2.toNat - 65 + 1 - (L1.toNat - 65) := by omega
  unfold rowsFrom rectangle colsOf
  simp only []
  rw [e1, e2, List.map_flatMap]
  congr 1
  funext i
  simp only [List.map_map]
  congr 1
  funext j
  simp only [Function.comp, Prod.mk.injEq]
  constructor
  · congr 1; omega
  · omega


/-! ## Cells that hold the text of an integer -/

theorem parseFloatChars_digits (neg : Bool) {ds : List Char} (hrun : IsRun Char.isDigit ds) :
    parseFloatChars (if neg then '-' :: ds else ds) = roundDouble neg (digitsVal ds * unit) 1 := by
  obtain ⟨hne, hall⟩ := hrun
  cases ds with
  | nil => exact absurd rfl hne
  | cons c cs =>
    have hc := hall c (List.mem_cons_self _ _)
    have htw : (c :: cs).takeWhile Char.isDigit = c :: cs :=
      List.takeWhile_eq_self_iff.mpr hall
    have hdw : (c :: cs).dropWhile Char.isDigit = [] :=
      List.dropWhile_eq_nil_iff.mpr hall
    have hI : c ≠ 'I' := by rintro rfl; exact absurd hc (by decide)
    have hsign : takeSign ((if neg then '-' :: c :: cs else c :: cs).dropWhile isWhiteSpace)
        = (neg, c :: cs) := by
      cases neg
      · simp only [Bool.false_eq_true, if_false]
        have : (c :: cs).dropWhile isWhiteSpace = c :: cs := by
          simp [List.dropWhile, not_isWhiteSpace_of_isDigit hc]
        rw [this, takeSign_of_isDigit cs hc]
      · simp only [if_true]
        have : ('-' :: c :: cs).dropWhile isWhiteSpace = '-' :: c :: cs := by
          have : isWhiteSpace '-' = false := by decide
          simp [List.dropWhile, this]
        rw [this]
        rfl
    unfold parseFloatChars
    rw [hsign]
    simp only
    have hinf : "Infinity".toList.isPrefixOf (c :: cs) = false := by
      show ('I' :: _).isPrefixOf (c :: cs) = false
      simp [List.isPrefixOf, Ne.symm hI]
    rw [hinf, htw, hdw]
    simp [roundDecimal]

theorem orZero_parseFloat_integerText {text : String} {n : Int} (h : IsIntegerText text n)
    (hn : n.natAbs ≤ 2 ^ 53) : orZero (parseFloat (.str text)) = .ofInt n := by
  obtain ⟨ds, hrun, ⟨htext, rfl⟩ | ⟨htext, rfl⟩⟩ := h
  · have hv : digitsVal ds ≤ 2 ^ 53 := by simpa using hn
    have := parseFloatChars_digits false hrun
    simp only [Bool.false_eq_true, if_false] at this
    show orZero (parseFloatChars text.toList) = _
    rw [htext, this, ← parseInt_digits hrun, parseInt_digits_exact hrun hv]
    simp only [JSNum.ofInt, orZero]
  · have hv : digitsVal ds ≤ 2 ^ 53 := by simpa using hn
    have := parseFloatChars_digits true hrun
    simp only [if_true] at this
    show orZero (parseFloatChars text.toList) = _
    rw [htext, this]
    have hk : digitsVal ds * 2 ^ 1074 < 2 ^ 2098 := by
      calc digitsVal ds * 2 ^ 1074 ≤ 2 ^ 53 * 2 ^ 1074 := Nat.mul_le_mul_right _ hv
        _ < 2 ^ 2098 := by rw [← pow_add]; exact Nat.pow_lt_pow_right (by norm_num) (by norm_num)
    rw [roundDouble_exact _ _ hk (shift_dvd _ _ hv)]
    by_cases h0 : digitsVal ds = 0
    · simp [h0, JSNum.zero, orZero, JSNum.ofInt]
    · have hne : digitsVal ds * 2 ^ 1074 ≠ 0 := by positivity
      rw [if_neg hne]
      simp only [if_true, orZero, JSNum.ofInt]
      congr 1
      push_cast
      ring

theorem foldl_jsAdd_ofInt (l : List Int) :
    ∀ a : Int, a.natAbs + (l.map Int.natAbs).sum ≤ 2 ^ 53 →
      (l.map JSNum.ofInt).foldl jsAdd (.ofInt a) = .ofInt (a + l.sum) := by
  induction l with
  | nil => intro a _; simp
  | cons b l ih =>
    intro a h
    simp only [List.map_cons, List.sum_cons, List.foldl_cons] at h ⊢
    have hab : (a + b).natAbs ≤ a.natAbs + b.natAbs := Int.natAbs_add_le a b
    rw [jsAdd_ofInt a b (by omega), ih (a + b) (by omega), add_assoc]

theorem sumValues_ofInt (l : List Int) (h : (l.map Int.natAbs).sum ≤ 2 ^ 53) :
    sumValues (l.map JSNum.ofInt) = .ofInt l.sum := by
  have := foldl_jsAdd_ofInt l 0 (by simpa using h)
  simpa [sumValues, JSNum.ofInt] using this

theorem mapM_map_eq_some {α β γ : Type} (f : β → Option γ) (g : α → γ) (k : α → β)
    (l : List α) (h : ∀ x ∈ l, f (k x) = some (g x)) :
    (l.map k).mapM f = some (l.map g) := by
  induction l with
  | nil => rfl
  | cons x xs ih =>
    have hx := h x (List.mem_cons_self _ _)
    have hxs := ih (fun y hy => h y (List.mem_cons_of_mem _ hy))
    rw [List.map_cons, List.mapM_cons, hx, hxs]
    rfl


/-! ## Undo and redo -/

theorem JSONValue.toJSON_toJS (v : JSONValue) : v.toJS.toJSON = v := by
  cases v <;> rfl

theorem JSVal.toJS_toJSON {v : JSVal} (h : v.jsonExact = true) : v.toJSON.toJS = v := by
  cases v with
  | str s => rfl
  | null => rfl
  | num n => cases n <;> first | rfl | simp [JSVal.jsonExact] at h

theorem JSON.stringify_parse (text : JSONText) : JSON.stringify (JSON.parse text) = text := by
  simp only [JSON.stringify, JSON.parse, List.map_map]
  have h : ∀ cells : List JSONCell,
      ((fun cells : List Cell => cells.map (fun cell => (⟨cell.value.toJSON, cell.formula⟩ : JSONCell)))
        ∘ (fun cells : List JSONCell => cells.map (fun cell => (⟨cell.value.toJS, cell.formula⟩ : Cell))))
        cells = cells := by
    intro cells
    simp only [Function.comp, List.map_map]
    conv_rhs => rw [← List.map_id cells]
    apply List.map_congr_left
    intro c _
    simp [JSONValue.toJSON_toJS]
  conv_rhs => rw [← List.map_id text]
  exact List.map_congr_left (fun cells _ => h cells)

theorem JSON.parse_stringify {grid : Grid} (h : grid.jsonExact) :
    JSON.parse (JSON.stringify grid) = grid := by
  simp only [JSON.stringify, JSON.parse, List.map_map]
  conv_rhs => rw [← List.map_id grid]
  apply List.map_congr_left
  intro cells hcells
  simp only [Function.comp, List.map_map, id]
  conv_rhs => rw [← List.map_id cells]
  apply List.map_congr_left
  intro cell hcell
  simp [JSVal.toJS_toJSON (h cells hcells cell hcell)]

theorem undo_concat (s : State) (rest : List JSONText) (top : JSONText)
    (h : s.undoStack = rest ++ [top]) :
    undo s = { s with
      undoStack := rest
      redoStack := s.redoStack ++ [JSON.stringify s.grid]
      grid := JSON.parse top } := by
  simp [undo, h]

theorem redo_concat (s : State) (rest : List JSONText) (top : JSONText)
    (h : s.redoStack = rest ++ [top]) :
    redo s = { s with
      redoStack := rest
      undoStack := s.undoStack ++ [JSON.stringify s.grid]
      grid := JSON.parse top } := by
  simp [redo, h]

/-- C1, at the failing input: on the initial state the text "5" is typed in the first
cell.  The snapshot saved is that of the edited grid, so the undo that follows makes the
edited grid current again and the initial grid is not restored. -/
theorem undo_after_edit_restores_nothing :
    ∃ s1, handleCellChange initialState 0 0 "5" = some s1
      ∧ (undo s1).grid = s1.grid
      ∧ (undo s1).grid ≠ initialState.grid
      ∧ (undo s1).undoStack = [] := by
  refine ⟨_, rfl, ?_, ?_, ?_⟩ <;> decide

/-- C2, at the failing input: the first cell is selected, the text "7" is typed in the
formula bar and applied.  The one snapshot pushed on the undo stack is that of the grid
after the write, not that of the grid before it. -/
theorem apply_saves_the_written_grid :
    ∃ s1, applyFormula (formulaTyped "7") = some s1
      ∧ s1.undoStack = (formulaTyped "7").undoStack ++ [JSON.stringify s1.grid]
      ∧ JSON.stringify s1.grid ≠ JSON.stringify (formulaTyped "7").grid := by
  refine ⟨_, rfl, ?_, ?_⟩ <;> decide

/-- C3 as stated fails where a cell holds `NaN`: after "=AVERAGE(B1:A1)" is applied to the
first cell (an empty range, `0 / 0`), undo followed by redo brings back `null` in that
cell, not `NaN`. -/
theorem undo_redo_loses_nan :
    ∃ s, applyFormula (formulaTyped "=AVERAGE(B1:A1)") = some s
      ∧ s.undoStack ≠ []
      ∧ (redo (undo s)).grid ≠ s.grid := by
  refine ⟨_, rfl, ?_, ?_⟩ <;> decide

/-- C3, amended: when the undo stack is not empty, undo pops the top snapshot, pushes
the snapshot of the current grid on the redo stack and makes the popped snapshot the
current grid; undo followed by redo gives back the same undo stack, the same redo stack
and the grid as it reads back from its JSON snapshot, which is the same grid (and the
same state) when no cell value is `NaN`, an infinity or `-0`. -/
theorem undo_then_redo (s : State) (h : s.undoStack ≠ []) :
    (∃ rest top, s.undoStack = rest ++ [top]
      ∧ undo s = { s with
          undoStack := rest
          redoStack := s.redoStack ++ [JSON.stringify s.grid]
          grid := JSON.parse top })
    ∧ (redo (undo s)).undoStack = s.undoStack
    ∧ (redo (undo s)).redoStack = s.redoStack
    ∧ (redo (undo s)).grid = JSON.parse (JSON.stringify s.grid)
    ∧ (s.grid.jsonExact → redo (undo s) = s) := by
  obtain ⟨rest, top, hs⟩ : ∃ rest top, s.undoStack = rest ++ [top] :=
    ⟨s.undoStack.dropLast, s.undoStack.getLast h, (List.dropLast_append_getLast h).symm⟩
  have hu := undo_concat s rest top hs
  have hr : redo (undo s) = { s with
      undoStack := rest ++ [top]
      grid := JSON.parse (JSON.stringify s.grid) } := by
    rw [redo_concat (undo s) s.redoStack (JSON.stringify s.grid) (by rw [hu])]
    simp [hu, JSON.stringify_parse]
  refine ⟨⟨rest, top, hs, hu⟩, ?_, ?_, ?_, ?_⟩
  · rw [hr, hs]
  · rw [hr]
  · rw [hr]
  · intro hex
    rw [hr, JSON.parse_stringify hex, ← hs]

/-- C3, witness: the state after the text "5" was typed in the first cell. -/
theorem undo_then_redo_witness :
    edited.undoStack ≠ [] ∧ redo (undo edited) = edited :=
  ⟨by decide, (undo_then_redo edited (by decide)).2.2.2.2 (by decide)⟩

/-- C4: after a `handleCellChange`, or an `applyFormula` with a selected cell, has run
(from any state, one reached by an undo included) the redo stack is empty, and a redo
that follows changes nothing: not the grid, not the undo stack, not the redo stack. -/
theorem edit_clears_redo_stack (s s1 : State)
    (h : (∃ row col value, handleCellChange s row col value = some s1)
      ∨ (s.selectedCell.isSome = true ∧ applyFormula s = some s1)) :
    s1.redoStack = [] ∧ redo s1 = s1 := by
  have key : ∀ (t : State) (g : Grid),
      (saveUndoState t g).redoStack = [] ∧ redo (saveUndoState t g) = saveUndoState t g := by
    intro t g
    simp [saveUndoState, redo]
  rcases h with ⟨row, col, value, h⟩ | ⟨hsel, h⟩
  · unfold handleCellChange at h
    split at h
    · exact absurd h (by simp)
    · cases h; exact key _ _
  · unfold applyFormula at h
    split at h
    · rename_i hnone; rw [hnone] at hsel; exact absurd hsel (by simp)
    · split at h
      · split at h
        · exact absurd h (by simp)
        · split at h
          · exact absurd h (by simp)
          · cases h; exact key _ _
      · exact absurd h (by simp)

/-- C4, witness: an edit of the second cell right after an undo, which had left one
snapshot on the redo stack. -/
theorem edit_clears_redo_stack_witness :
    editedThenUndone.redoStack ≠ []
    ∧ ∃ s1, handleCellChange editedThenUndone 0 1 "7" = some s1
        ∧ s1.redoStack = [] ∧ redo s1 = s1 :=
  ⟨by decide, _, rfl,
   edit_clears_redo_stack editedThenUndone _ (Or.inl ⟨0, 1, "7", rfl⟩)⟩

/-- C5: undo with an empty undo stack and redo with an empty redo stack change nothing
in the state: the grid and both stacks stay as they are. -/
theorem undo_redo_on_empty_stack (s : State) :
    (s.undoStack = [] → undo s = s) ∧ (s.redoStack = [] → redo s = s) := by
  constructor <;> intro h <;> simp [undo, redo, h]

/-- C5, witness: the initial state, where both stacks are empty. -/
theorem undo_redo_on_empty_stack_witness :
    undo initialState = initialState ∧ redo initialState = initialState :=
  ⟨(undo_redo_on_empty_stack initialState).1 rfl, (undo_redo_on_empty_stack initialState).2 rfl⟩

/-! ## The search for a range reference -/

theorem matchRangeAt_sound {cs : List Char} {m : String × String}
    (h : matchRangeAt cs = some m) :
    ∃ l1 d1 l2 d2 post, cs = l1 ++ d1 ++ ':' :: (l2 ++ d2) ++ post
      ∧ IsRun Char.isUpper l1 ∧ IsRun Char.isDigit d1
      ∧ IsRun Char.isUpper l2 ∧ IsRun Char.isDigit d2 := by
  unfold matchRangeAt at h
  simp only at h
  split at h
  · rename_i r3 hr2
    split at h
    · exact absurd h (by simp)
    · rename_i hne
      simp only [not_or, List.isEmpty_iff] at hne
      obtain ⟨h1, h2, h3, h4⟩ := hne
      refine ⟨cs.takeWhile Char.isUpper, (cs.dropWhile Char.isUpper).takeWhile Char.isDigit,
        r3.takeWhile Char.isUpper, (r3.dropWhile Char.isUpper).takeWhile Char.isDigit,
        (r3.dropWhile Char.isUpper).dropWhile Char.isDigit, ?_,
        ⟨h1, fun c hc => List.mem_takeWhile_imp hc⟩, ⟨h2, fun c hc => List.mem_takeWhile_imp hc⟩,
        ⟨h3, fun c hc => List.mem_takeWhile_imp hc⟩, ⟨h4, fun c hc => List.mem_takeWhile_imp hc⟩⟩
      have e1 := List.takeWhile_append_dropWhile Char.isUpper cs
      have e2 := List.takeWhile_append_dropWhile Char.isDigit (cs.dropWhile Char.isUpper)
      have e3 := List.takeWhile_append_dropWhile Char.isUpper r3
      have e4 := List.takeWhile_append_dropWhile Char.isDigit (r3.dropWhile Char.isUpper)
      rw [hr2] at e2
      calc cs = cs.takeWhile Char.isUpper ++ cs.dropWhile Char.isUpper := e1.symm
        _ = cs.takeWhile Char.isUpper
              ++ ((cs.dropWhile Char.isUpper).takeWhile Char.isDigit ++ ':' :: r3) := by rw [e2]
        _ = _ := by
          conv_lhs => rw [← e3, ← e4]
          simp [List.append_assoc]
  · exact absurd h (by simp)

theorem rangeMatch_sound {cs : List Char} {m : String × String}
    (h : rangeMatch cs = some m) : ContainsRange cs := by
  induction cs with
  | nil => simp [rangeMatch] at h
  | cons c cs ih =>
    unfold rangeMatch at h
    split at h
    · rename_i m' hm
      obtain ⟨l1, d1, l2, d2, post, e, r1, r2, r3, r4⟩ := matchRangeAt_sound hm
      exact ⟨[], l1, d1, l2, d2, post, by simpa using e, r1, r2, r3, r4⟩
    · obtain ⟨pre, l1, d1, l2, d2, post, e, r1, r2, r3, r4⟩ := ih h
      exact ⟨c :: pre, l1, d1, l2, d2, post, by rw [e]; simp, r1, r2, r3, r4⟩

theorem rangeMatch_none_of_not_containsRange {cs : List Char} (h : ¬ ContainsRange cs) :
    rangeMatch cs = none := by
  cases hm : rangeMatch cs with
  | none => rfl
  | some m => exact absurd (rangeMatch_sound hm) h

theorem colon_mem_of_containsRange {cs : List Char} (h : ContainsRange cs) : ':' ∈ cs := by
  obtain ⟨pre, l1, d1, l2, d2, post, e, -⟩ := h
  rw [e]; simp

theorem colon_letter_digit_of_single {cs : List Char} (h : ContainsSingleLetterRange cs) :
    cs.tails.any (fun t => match t with
      | ':' :: b :: d :: _ => b.isUpper && d.isDigit
      | _ => false) = true := by
  obtain ⟨pre, a, d1, b, d2, post, e, -, -, hb, hne, hd2⟩ := h
  cases d2 with
  | nil => exact absurd rfl hne
  | cons d d2 =>
    rw [List.any_eq_true]
    refine ⟨':' :: b :: d :: (d2 ++ post), ?_, ?_⟩
    · rw [List.mem_tails, e]
      exact ⟨pre ++ a :: d1, by simp⟩
    · simp [hb, hd2 d (List.mem_cons_self _ _)]

/-- C10 as stated fails for a range with two-letter columns: "=SUM(AA1:AB2)" starts with
"=" and contains no range reference with one-letter columns, yet the regular expression
accepts `AA1:AB2`, the rows decode to `NaN`, the range is empty and the result is the
number `0`, not "INVALID". -/
theorem multi_letter_range_is_not_invalid :
    startsWith "=SUM(AA1:AB2)" "=" = true
    ∧ ¬ ContainsSingleLetterRange "=SUM(AA1:AB2)".toList
    ∧ evaluateFormula initialState.grid "=SUM(AA1:AB2)" = some (.num (.ofInt 0))
    ∧ evaluateFormula initialState.grid "=SUM(AA1:AB2)" ≠ some (.str "INVALID") := by
  refine ⟨by decide, ?_, by decide, by decide⟩
  intro h
  exact absurd (colon_letter_digit_of_single h) (by decide)

/-- C10, amended: a formula that starts with "=" and contains no range reference as the
regular expression reads it (one or more uppercase letters, one or more digits, a colon,
one or more uppercase letters, one or more digits) evaluates to "INVALID", on every
grid. -/
theorem no_range_is_invalid (grid : Grid) (formula : String)
    (heq : startsWith formula "=" = true) (hno : ¬ ContainsRange formula.toList) :
    evaluateFormula grid formula = some (.str "INVALID") := by
  unfold evaluateFormula
  rw [heq, rangeMatch_none_of_not_containsRange hno]
  rfl

/-- C10, witness: "=SUM(A1)" has no colon, so no range reference. -/
theorem no_range_is_invalid_witness :
    startsWith "=SUM(A1)" "=" = true
    ∧ evaluateFormula initialState.grid "=SUM(A1)" = some (.str "INVALID") :=
  ⟨by decide,
   no_range_is_invalid initialState.grid "=SUM(A1)" (by decide)
     (fun h => absurd (colon_mem_of_containsRange h) (by decide))⟩

/-! ## Formulas that are neither a sum nor an average -/

theorem mapM_eq_some_map {α β : Type} (f : α → Option β) (g : α → β) (l : List α)
    (h : ∀ x ∈ l, f x = some (g x)) : l.mapM f = some (l.map g) := by
  induction l with
  | nil => rfl
  | cons x xs ih =>
    have hx := h x (List.mem_cons_self _ _)
    have hxs := ih (fun y hy => h y (List.mem_cons_of_mem _ hy))
    rw [List.mapM_cons, hx, hxs]
    rfl

theorem toIndex_ofInt_natCast (r : Nat) : (JSNum.ofInt (r : Int)).toIndex? = some r := by
  have hpos : (0 : Int) < ((unit : Nat) : Int) := by
    have : 0 < unit := Nat.pos_pow_of_pos _ (by norm_num)
    exact_mod_cast this
  have h0 : (0 : Int) ≤ (r : Int) * ((unit : Nat) : Int) := by positivity
  simp only [JSNum.ofInt, JSNum.toIndex?]
  rw [if_pos ⟨h0, Int.mul_emod_left _ _⟩, Int.mul_ediv_cancel _ (ne_of_gt hpos)]
  simp

theorem cellNumber_of_cellAt {grid : Grid} {r c : Nat} {cell : Cell}
    (h : cellAt grid r c = some cell) :
    cellNumber grid (JSNum.ofInt r, (c : Int)) = some (orZero (parseFloat cell.value)) := by
  unfold cellAt at h
  unfold cellNumber
  simp only [toIndex_ofInt_natCast]
  split at h
  · exact absurd h (by simp)
  · rename_i cells hrow
    simp [hrow, h]

theorem cellNumber_isSome_of_inGrid {grid : Grid} {rc : JSNum × Int} (h : InGrid grid rc) :
    ∃ cell : Cell, cellNumber grid rc = some (orZero (parseFloat cell.value)) := by
  obtain ⟨r, c, rfl, hc⟩ := h
  obtain ⟨cell, hcell⟩ := Option.isSome_iff_exists.mp hc
  exact ⟨cell, cellNumber_of_cellAt hcell⟩

theorem evaluateFormula_of_values {grid : Grid} {formula startCell endCell : String}
    {cells : List (JSNum × Int)} {values : List JSNum}
    (heq : startsWith formula "=" = true)
    (hmatch : rangeMatch formula.toList = some (startCell, endCell))
    (hrange : parseRange startCell endCell = some cells)
    (hvalues : cells.mapM (cellNumber grid) = some values) :
    evaluateFormula grid formula =
      if startsWith formula "=SUM" then some (.num (sumValues values))
      else if startsWith formula "=AVERAGE" then
        some (.num (jsDiv (sumValues values) (.ofInt values.length)))
      else some (.str "INVALID") := by
  unfold evaluateFormula
  rw [heq, hmatch]
  simp only [Bool.not_true, Bool.false_eq_true, if_false]
  rw [hrange]
  simp only []
  rw [hvalues]

theorem mapM_cellNumber_of_inGrid {grid : Grid} {cells : List (JSNum × Int)}
    (h : ∀ rc ∈ cells, InGrid grid rc) :
    ∃ values, cells.mapM (cellNumber grid) = some values := by
  refine ⟨cells.map (fun rc => (cellNumber grid rc).getD (.fin 0)), ?_⟩
  apply mapM_eq_some_map
  intro rc hrc
  obtain ⟨cell, hcell⟩ := cellNumber_isSome_of_inGrid (h rc hrc)
  simp [hcell]

/-- C9 as stated fails when the range leaves the grid: "=PRODUCT(A1:A25)" starts with "=",
is neither a sum nor an average and contains the one-letter range `A1:A25`, but the
initial grid has 20 rows, reading row 21 throws and the result is "ERROR". -/
theorem unknown_function_out_of_grid_is_error :
    startsWith "=PRODUCT(A1:A25)" "=" = true
    ∧ startsWith "=PRODUCT(A1:A25)" "=SUM" = false
    ∧ startsWith "=PRODUCT(A1:A25)" "=AVERAGE" = false
    ∧ ContainsSingleLetterRange "=PRODUCT(A1:A25)".toList
    ∧ evaluateFormula initialState.grid "=PRODUCT(A1:A25)" = some (.str "ERROR") := by
  refine ⟨by decide, by decide, by decide, ?_, by decide⟩
  exact ⟨"=PRODUCT(".toList, 'A', ['1'], 'A', ['2', '5'], [')'], by decide, by decide,
    ⟨by decide, by decide⟩, by decide, ⟨by decide, by decide⟩⟩

/-- C9, amended: a formula that starts with "=", does not start with "=SUM" or
"=AVERAGE" and contains a range reference evaluates to "INVALID" when `parseRange`
returns the cells of the first range reference and every one of them lies inside the
grid. -/
theorem unknown_function_is_invalid (grid : Grid) (formula startCell endCell : String)
    (cells : List (JSNum × Int))
    (heq : startsWith formula "=" = true)
    (hsum : startsWith formula "=SUM" = false)
    (havg : startsWith formula "=AVERAGE" = false)
    (hmatch : rangeMatch formula.toList = some (startCell, endCell))
    (hrange : parseRange startCell endCell = some cells)
    (hin : ∀ rc ∈ cells, InGrid grid rc) :
    evaluateFormula grid formula = some (.str "INVALID") := by
  obtain ⟨values, hvalues⟩ := mapM_cellNumber_of_inGrid hin
  rw [evaluateFormula_of_values heq hmatch hrange hvalues, hsum, havg]
  rfl

/-- C9, witness: "=PRODUCT(A1:A2)" on the initial grid. -/
theorem unknown_function_is_invalid_witness :
    evaluateFormula initialState.grid "=PRODUCT(A1:A2)" = some (.str "INVALID") :=
  unknown_function_is_invalid initialState.grid "=PRODUCT(A1:A2)" "A1" "A2"
    [(.ofInt 0, 0), (.ofInt 1, 0)] (by decide) (by decide) (by decide) (by decide) (by decide)
    (by
      intro rc hrc
      simp only [List.mem_cons, List.mem_singleton, List.not_mem_nil, or_false] at hrc
      rcases hrc with rfl | rfl
      · exact ⟨0, 0, rfl, by decide⟩
      · exact ⟨1, 0, rfl, by decide⟩)

/-! ## Sums and averages over a rectangle inside the grid -/

theorem startsWith_eq_of_startsWith_sum {formula : String}
    (h : startsWith formula "=SUM" = true) : startsWith formula "=" = true := by
  unfold startsWith at *
  have e : "=SUM".toList = '=' :: "SUM".toList := rfl
  have e' : "=".toList = ['='] := rfl
  rw [e] at h
  rw [e']
  cases hf : formula.toList with
  | nil => rw [hf] at h; simp [List.isPrefixOf] at h
  | cons c cs =>
    rw [hf] at h
    simp only [List.isPrefixOf, Bool.and_eq_true, beq_iff_eq] at h ⊢
    exact ⟨h.1, trivial⟩

theorem startsWith_eq_of_startsWith_average {formula : String}
    (h : startsWith formula "=AVERAGE" = true) :
    startsWith formula "=" = true ∧ startsWith formula "=SUM" = false := by
  unfold startsWith at *
  have e : "=AVERAGE".toList = '=' :: 'A' :: "VERAGE".toList := rfl
  have e' : "=".toList = ['='] := rfl
  have e'' : "=SUM".toList = '=' :: 'S' :: "UM".toList := rfl
  rw [e] at h
  rw [e', e'']
  cases hf : formula.toList with
  | nil => rw [hf] at h; simp [List.isPrefixOf] at h
  | cons c cs =>
    cases cs with
    | nil => rw [hf] at h; simp [List.isPrefixOf] at h
    | cons c2 cs =>
      rw [hf] at h
      simp only [List.isPrefixOf, Bool.and_eq_true, beq_iff_eq] at h ⊢
      refine ⟨⟨h.1, trivial⟩, ?_⟩
      have hc2 : c2 = 'A' := h.2.1.symm
      subst hc2
      simp [List.isPrefixOf]

theorem mem_rectangle {n1 n2 c1 c2 : Nat} {rc : Nat × Nat} :
    rc ∈ rectangle n1 n2 c1 c2 ↔
      ∃ i, i < n2 + 1 - n1 ∧ ∃ j, j < c2 + 1 - c1 ∧ rc = (n1 - 1 + i, c1 + j) := by
  simp only [rectangle, List.mem_flatMap, List.mem_map, List.mem_range]
  constructor
  · rintro ⟨i, hi, j, hj, rfl⟩; exact ⟨i, hi, j, hj, rfl⟩
  · rintro ⟨i, hi, j, hj, rfl⟩; exact ⟨i, hi, j, hj, rfl⟩

theorem length_rectangle (n1 n2 c1 c2 : Nat) :
    (rectangle n1 n2 c1 c2).length = (n2 + 1 - n1) * (c2 + 1 - c1) := by
  unfold rectangle
  generalize n2 + 1 - n1 = a
  induction a with
  | zero => simp
  | succ a ih =>
    rw [List.range_succ, List.flatMap_append, List.length_append, ih]
    simp [Nat.succ_mul]

theorem lt_length_of_cellAt {grid : Grid} {r c : Nat} (h : (cellAt grid r c).isSome = true) :
    r < grid.length := by
  unfold cellAt at h
  split at h
  · simp at h
  · rename_i cells hrow
    exact (List.getElem?_eq_some.mp hrow).1

theorem evaluateFormula_rectangle {grid : Grid} {formula : String} {L1 L2 : Char}
    {ds1 ds2 : List Char} (f : Nat × Nat → JSNum)
    (heq : startsWith formula "=" = true)
    (hmatch : rangeMatch formula.toList = some (String.mk (L1 :: ds1), String.mk (L2 :: ds2)))
    (hL1 : L1.isUpper = true) (hL2 : L2.isUpper = true)
    (hd1 : IsRun Char.isDigit ds1) (hd2 : IsRun Char.isDigit ds2)
    (hn1 : 1 ≤ digitsVal ds1) (h1 : digitsVal ds1 ≤ 2 ^ 53) (h2 : digitsVal ds2 ≤ 2 ^ 53)
    (hcells : ∀ rc ∈ rectangle (digitsVal ds1) (digitsVal ds2) (L1.toNat - 65) (L2.toNat - 65),
      ∃ cell : Cell, cellAt grid rc.1 rc.2 = some cell ∧ orZero (parseFloat cell.value) = f rc) :
    evaluateFormula grid formula =
      if startsWith formula "=SUM" then
        some (.num (sumValues
          ((rectangle (digitsVal ds1) (digitsVal ds2) (L1.toNat - 65) (L2.toNat - 65)).map f)))
      else if startsWith formula "=AVERAGE" then
        some (.num (jsDiv
          (sumValues
            ((rectangle (digitsVal ds1) (digitsVal ds2) (L1.toNat - 65) (L2.toNat - 65)).map f))
          (.ofInt (((digitsVal ds2 + 1 - digitsVal ds1) * (L2.toNat - 65 + 1 - (L1.toNat - 65)) : Nat) : Int))))
      else some (.str "INVALID") := by
  have hrange := parseRange_exact hL1 hL2 hd1 hd2 h1 h2
  rw [rowsFrom_eq_rectangle _ _ hL1 hL2 hn1] at hrange
  have hvalues := mapM_map_eq_some (cellNumber grid) f
    (fun rc : Nat × Nat => (JSNum.ofInt (rc.1 : Nat), ((rc.2 : Nat) : Int)))
    (rectangle (digitsVal ds1) (digitsVal ds2) (L1.toNat - 65) (L2.toNat - 65))
    (by
      intro rc hrc
      obtain ⟨cell, hcell, hf⟩ := hcells rc hrc
      rw [cellNumber_of_cellAt hcell, hf])
  rw [evaluateFormula_of_values heq hmatch hrange hvalues, List.length_map, length_rectangle]


theorem natAbs_le_sum_of_mem {α : Type} (l : List α) (g : α → Nat) {x : α} (hx : x ∈ l) :
    g x ≤ (l.map g).sum := by
  induction l with
  | nil => simp at hx
  | cons y ys ih =>
    simp only [List.map_cons, List.sum_cons]
    rcases List.mem_cons.mp hx with rfl | h
    · omega
    · have := ih h; omega

theorem integer_range_values {grid : Grid} {L1 L2 : Char} {ds1 ds2 : List Char}
    (v : Nat → Nat → Int)
    (hcols : L1.toNat ≤ L2.toNat)
    (hrows : 1 ≤ digitsVal ds1 ∧ digitsVal ds1 ≤ digitsVal ds2)
    (hgrid : grid.length < 2 ^ 32)
    (hcells : ∀ rc ∈ rectangle (digitsVal ds1) (digitsVal ds2) (L1.toNat - 65) (L2.toNat - 65),
      ∃ (cell : Cell) (text : String), cellAt grid rc.1 rc.2 = some cell ∧ cell.value = .str text
        ∧ IsIntegerText text (v rc.1 rc.2))
    (hsafe : ((rectangle (digitsVal ds1) (digitsVal ds2) (L1.toNat - 65) (L2.toNat - 65)).map
      (fun rc => (v rc.1 rc.2).natAbs)).sum ≤ 2 ^ 53) :
    (digitsVal ds1 ≤ 2 ^ 53 ∧ digitsVal ds2 ≤ 2 ^ 53)
    ∧ ∀ rc ∈ rectangle (digitsVal ds1) (digitsVal ds2) (L1.toNat - 65) (L2.toNat - 65),
      ∃ cell : Cell, cellAt grid rc.1 rc.2 = some cell
        ∧ orZero (parseFloat cell.value) = JSNum.ofInt (v rc.1 rc.2) := by
  constructor
  · have hmem : (digitsVal ds1 - 1 + (digitsVal ds2 - digitsVal ds1), L1.toNat - 65 + 0)
        ∈ rectangle (digitsVal ds1) (digitsVal ds2) (L1.toNat - 65) (L2.toNat - 65) :=
      mem_rectangle.mpr ⟨_, by omega, 0, by omega, rfl⟩
    obtain ⟨cell, text, hcell, -, -⟩ := hcells _ hmem
    have hlt := lt_length_of_cellAt (by rw [hcell]; rfl : (cellAt grid _ _).isSome = true)
    simp only at hlt
    have h32 : (2 : Nat) ^ 32 ≤ 2 ^ 53 := Nat.pow_le_pow_right (by norm_num) (by norm_num)
    omega
  · intro rc hrc
    obtain ⟨cell, text, hcell, hval, htext⟩ := hcells rc hrc
    refine ⟨cell, hcell, ?_⟩
    rw [hval]
    apply orZero_parseFloat_integerText htext
    exact le_trans (natAbs_le_sum_of_mem _ (fun rc => (v rc.1 rc.2).natAbs) hrc) hsafe

/-- C6 as stated fails beyond `2^53`: with A1 = "1", A2 = "9007199254740992" and A3 = "1",
all decimal texts of integers, "=SUM(A1:A3)" returns 9007199254740992, because
`9007199254740992 + 1` rounds back to 9007199254740992; the sum of the integers is
9007199254740994. -/
theorem sum_rounds_beyond_two_pow_53 :
    IsIntegerText "1" 1 ∧ IsIntegerText "9007199254740992" 9007199254740992
    ∧ evaluateFormula (gridOf [["1"], ["9007199254740992"], ["1"]]) "=SUM(A1:A3)"
        = some (.num (.ofInt 9007199254740992))
    ∧ evaluateFormula (gridOf [["1"], ["9007199254740992"], ["1"]]) "=SUM(A1:A3)"
        ≠ some (.num (.ofInt (1 + 9007199254740992 + 1))) := by
  refine ⟨⟨['1'], ⟨by decide, by decide⟩, Or.inl ⟨rfl, by decide⟩⟩,
    ⟨"9007199254740992".toList, ⟨by decide, by decide⟩, Or.inl ⟨rfl, by decide⟩⟩,
    by decide, by decide⟩

/-- C6, amended: for a grid of fewer than `2^32` rows (as every JavaScript array) and a
formula that starts with "=SUM" whose first range reference `L1 n1 : L2 n2` has single
letters with `L1 ≤ L2` and `1 ≤ n1 ≤ n2` and lies inside the grid, where every cell of
the range holds the decimal text of an integer and the absolute values of those integers
add up to at most `2^53`, `evaluateFormula` returns the sum of those integers. -/
theorem sum_of_integer_range (grid : Grid) (formula : String) (L1 L2 : Char)
    (ds1 ds2 : List Char) (v : Nat → Nat → Int)
    (hsum : startsWith formula "=SUM" = true)
    (hmatch : rangeMatch formula.toList = some (String.mk (L1 :: ds1), String.mk (L2 :: ds2)))
    (hL1 : L1.isUpper = true) (hL2 : L2.isUpper = true)
    (hd1 : IsRun Char.isDigit ds1) (hd2 : IsRun Char.isDigit ds2)
    (hcols : L1.toNat ≤ L2.toNat)
    (hrows : 1 ≤ digitsVal ds1 ∧ digitsVal ds1 ≤ digitsVal ds2)
    (hgrid : grid.length < 2 ^ 32)
    (hcells : ∀ rc ∈ rectangle (digitsVal ds1) (digitsVal ds2) (L1.toNat - 65) (L2.toNat - 65),
      ∃ (cell : Cell) (text : String), cellAt grid rc.1 rc.2 = some cell ∧ cell.value = .str text
        ∧ IsIntegerText text (v rc.1 rc.2))
    (hsafe : ((rectangle (digitsVal ds1) (digitsVal ds2) (L1.toNat - 65) (L2.toNat - 65)).map
      (fun rc => (v rc.1 rc.2).natAbs)).sum ≤ 2 ^ 53) :
    evaluateFormula grid formula
      = some (.num (.ofInt
          ((rectangle (digitsVal ds1) (digitsVal ds2) (L1.toNat - 65) (L2.toNat - 65)).map
            (fun rc => v rc.1 rc.2)).sum)) := by
  obtain ⟨⟨h1, h2⟩, hvals⟩ := integer_range_values v hcols hrows hgrid hcells hsafe
  rw [evaluateFormula_rectangle (fun rc => JSNum.ofInt (v rc.1 rc.2))
    (startsWith_eq_of_startsWith_sum hsum) hmatch hL1 hL2 hd1 hd2 hrows.1 h1 h2 hvals, hsum]
  simp only [if_true]
  have e : (rectangle (digitsVal ds1) (digitsVal ds2) (L1.toNat - 65) (L2.toNat - 65)).map
      (fun rc => JSNum.ofInt (v rc.1 rc.2))
      = ((rectangle (digitsVal ds1) (digitsVal ds2) (L1.toNat - 65) (L2.toNat - 65)).map
          (fun rc => v rc.1 rc.2)).map JSNum.ofInt := by
    rw [List.map_map]; rfl
  rw [e, sumValues_ofInt _ (by rw [List.map_map]; exact hsafe)]

/-- C6, witness: A1 = "1", A2 = "2", A3 = "3" and "=SUM(A1:A3)" give 6. -/
theorem sum_of_integer_range_witness :
    evaluateFormula (gridOf [["1"], ["2"], ["3"]]) "=SUM(A1:A3)" = some (.num (.ofInt 6)) :=
  Eq.trans (sum_of_integer_range (gridOf [["1"], ["2"], ["3"]]) "=SUM(A1:A3)" 'A' 'A' ['1'] ['3']
    (fun r _ => (r : Int) + 1) (by decide) (by decide) (by decide) (by decide)
    ⟨by decide, by decide⟩ ⟨by decide, by decide⟩ (by decide) ⟨by decide, by decide⟩
    (by decide)
    (by
      intro rc hrc
      have hrc' : rc ∈ [(0, 0), (1, 0), (2, 0)] := hrc
      simp only [List.mem_cons, List.mem_singleton, List.not_mem_nil, or_false] at hrc'
      rcases hrc' with rfl | rfl | rfl
      · exact ⟨⟨.str "1", ""⟩, "1", rfl, rfl, ['1'], ⟨by decide, by decide⟩, Or.inl ⟨rfl, by decide⟩⟩
      · exact ⟨⟨.str "2", ""⟩, "2", rfl, rfl, ['2'], ⟨by decide, by decide⟩, Or.inl ⟨rfl, by decide⟩⟩
      · exact ⟨⟨.str "3", ""⟩, "3", rfl, rfl, ['3'], ⟨by decide, by decide⟩, Or.inl ⟨rfl, by decide⟩⟩)
    (by decide)) (by decide)


/-- C7 as stated fails beyond `2^53`: with A1 = "9007199254740992", A2 = "1" and A3 = "1"
the running sum stays 9007199254740992, so "=AVERAGE(A1:A3)" returns
`9007199254740992 / 3`, which is not the sum of the integers, 9007199254740994, divided
by 3 (the two quotients are different doubles). -/
theorem average_rounds_beyond_two_pow_53 :
    IsIntegerText "9007199254740992" 9007199254740992 ∧ IsIntegerText "1" 1
    ∧ evaluateFormula (gridOf [["9007199254740992"], ["1"], ["1"]]) "=AVERAGE(A1:A3)"
        = some (.num (jsDiv (.ofInt 9007199254740992) (.ofInt 3)))
    ∧ evaluateFormula (gridOf [["9007199254740992"], ["1"], ["1"]]) "=AVERAGE(A1:A3)"
        ≠ some (.num (jsDiv (.ofInt (9007199254740992 + 1 + 1)) (.ofInt 3))) := by
  refine ⟨⟨"9007199254740992".toList, ⟨by decide, by decide⟩, Or.inl ⟨rfl, by decide⟩⟩,
    ⟨['1'], ⟨by decide, by decide⟩, Or.inl ⟨rfl, by decide⟩⟩,
    by decide, by decide⟩

/-- C7, amended: for a grid of fewer than `2^32` rows (as every JavaScript array) and a
formula that starts with "=AVERAGE" whose first range reference `L1 n1 : L2 n2` has
single letters with `L1 ≤ L2` and `1 ≤ n1 ≤ n2` and lies inside the grid, where every
cell of the range holds the decimal text of an integer and the absolute values of those
integers add up to at most `2^53`, `evaluateFormula` returns the sum of those integers
divided (the JavaScript division) by the number of cells of the range,
`(n2 - n1 + 1) * (c2 - c1 + 1)`. -/
theorem average_of_integer_range (grid : Grid) (formula : String) (L1 L2 : Char)
    (ds1 ds2 : List Char) (v : Nat → Nat → Int)
    (havg : startsWith formula "=AVERAGE" = true)
    (hmatch : rangeMatch formula.toList = some (String.mk (L1 :: ds1), String.mk (L2 :: ds2)))
    (hL1 : L1.isUpper = true) (hL2 : L2.isUpper = true)
    (hd1 : IsRun Char.isDigit ds1) (hd2 : IsRun Char.isDigit ds2)
    (hcols : L1.toNat ≤ L2.toNat)
    (hrows : 1 ≤ digitsVal ds1 ∧ digitsVal ds1 ≤ digitsVal ds2)
    (hgrid : grid.length < 2 ^ 32)
    (hcells : ∀ rc ∈ rectangle (digitsVal ds1) (digitsVal ds2) (L1.toNat - 65) (L2.toNat - 65),
      ∃ (cell : Cell) (text : String), cellAt grid rc.1 rc.2 = some cell ∧ cell.value = .str text
        ∧ IsIntegerText text (v rc.1 rc.2))
    (hsafe : ((rectangle (digitsVal ds1) (digitsVal ds2) (L1.toNat - 65) (L2.toNat - 65)).map
      (fun rc => (v rc.1 rc.2).natAbs)).sum ≤ 2 ^ 53) :
    evaluateFormula grid formula
      = some (.num (jsDiv
          (.ofInt ((rectangle (digitsVal ds1) (digitsVal ds2) (L1.toNat - 65) (L2.toNat - 65)).map
            (fun rc => v rc.1 rc.2)).sum)
          (.ofInt (((digitsVal ds2 - digitsVal ds1 + 1) * (L2.toNat - L1.toNat + 1) : Nat) : Int)))) := by
  obtain ⟨⟨h1, h2⟩, hvals⟩ := integer_range_values v hcols hrows hgrid hcells hsafe
  obtain ⟨heq, hnsum⟩ := startsWith_eq_of_startsWith_average havg
  have u1 := toNat_of_isUpper hL1
  have u2 := toNat_of_isUpper hL2
  rw [evaluateFormula_rectangle (fun rc => JSNum.ofInt (v rc.1 rc.2))
    heq hmatch hL1 hL2 hd1 hd2 hrows.1 h1 h2 hvals, hnsum, havg]
  simp only [Bool.false_eq_true, if_false, if_true]
  have e : (rectangle (digitsVal ds1) (digitsVal ds2) (L1.toNat - 65) (L2.toNat - 65)).map
      (fun rc => JSNum.ofInt (v rc.1 rc.2))
      = ((rectangle (digitsVal ds1) (digitsVal ds2) (L1.toNat - 65) (L2.toNat - 65)).map
          (fun rc => v rc.1 rc.2)).map JSNum.ofInt := by
    rw [List.map_map]; rfl
  have e1 : digitsVal ds2 + 1 - digitsVal ds1 = digitsVal ds2 - digitsVal ds1 + 1 := by omega
  have e2 : L2.toNat - 65 + 1 - (L1.toNat - 65) = L2.toNat - L1.toNat + 1 := by omega
  rw [e, sumValues_ofInt _ (by rw [List.map_map]; exact hsafe), e1, e2]

/-- C7, witness: A1 = "1", A2 = "2", A3 = "3" and "=AVERAGE(A1:A3)" give 2. -/
theorem average_of_integer_range_witness :
    evaluateFormula (gridOf [["1"], ["2"], ["3"]]) "=AVERAGE(A1:A3)"
      = some (.num (.ofInt 2)) :=
  Eq.trans (average_of_integer_range (gridOf [["1"], ["2"], ["3"]]) "=AVERAGE(A1:A3)" 'A' 'A'
    ['1'] ['3'] (fun r _ => (r : Int) + 1) (by decide) (by decide) (by decide) (by decide)
    ⟨by decide, by decide⟩ ⟨by decide, by decide⟩ (by decide) ⟨by decide, by decide⟩
    (by decide)
    (by
      intro rc hrc
      have hrc' : rc ∈ [(0, 0), (1, 0), (2, 0)] := hrc
      simp only [List.mem_cons, List.mem_singleton, List.not_mem_nil, or_false] at hrc'
      rcases hrc' with rfl | rfl | rfl
      · exact ⟨⟨.str "1", ""⟩, "1", rfl, rfl, ['1'], ⟨by decide, by decide⟩, Or.inl ⟨rfl, by decide⟩⟩
      · exact ⟨⟨.str "2", ""⟩, "2", rfl, rfl, ['2'], ⟨by decide, by decide⟩, Or.inl ⟨rfl, by decide⟩⟩
      · exact ⟨⟨.str "3", ""⟩, "3", rfl, rfl, ['3'], ⟨by decide, by decide⟩, Or.inl ⟨rfl, by decide⟩⟩)
    (by decide)) (by decide)


/-! ## Cells that hold no number -/

theorem roundHalfEven_bounds (n d : Nat) :
    n / d ≤ roundHalfEven n d ∧ roundHalfEven n d ≤ n / d + 1 := by
  unfold roundHalfEven
  simp only
  split_ifs <;> omega

theorem roundUnits_add_zero (z : Int) : jsAdd (roundUnits z) (.fin 0) = roundUnits z := by
  unfold roundUnits roundDouble
  simp only [Nat.div_one, Nat.one_mul]
  by_cases hk : 2 ^ 2098 ≤ z.natAbs
  · rw [if_pos hk]; rfl
  rw [if_neg hk]
  have hklt : z.natAbs < 2 ^ 2098 := Nat.lt_of_not_le hk
  have hLlt := log2Floor_lt hklt
  generalize hL : log2Floor z.natAbs = L at hLlt
  have hm := roundHalfEven_bounds z.natAbs (2 ^ (L + 1 - 53))
  generalize roundHalfEven z.natAbs (2 ^ (L + 1 - 53)) = m at hm
  have hpow : 0 < 2 ^ (L + 1 - 53) := Nat.pos_pow_of_pos _ (by norm_num)
  have hm53 : m ≤ 2 ^ 53 := by
    have h1 : z.natAbs < 2 ^ 53 * 2 ^ (L + 1 - 53) := by
      rw [← pow_add]
      exact lt_of_lt_of_le hLlt (Nat.pow_le_pow_right (by norm_num) (by omega))
    have h2 : z.natAbs / 2 ^ (L + 1 - 53) < 2 ^ 53 := (Nat.div_lt_iff_lt_mul hpow).mpr h1
    omega
  by_cases hr : 2 ^ 2098 ≤ m * 2 ^ (L + 1 - 53)
  · rw [if_pos hr]; rfl
  rw [if_neg hr]
  have hrlt : m * 2 ^ (L + 1 - 53) < 2 ^ 2098 := Nat.lt_of_not_le hr
  by_cases hr0 : m * 2 ^ (L + 1 - 53) = 0
  · rw [if_pos hr0]
    by_cases hneg : z < 0
    · exfalso
      have hk1 : 1 ≤ z.natAbs := Int.natAbs_pos.mpr (ne_of_lt hneg)
      have hLle := log2Floor_le hk1
      rw [hL] at hLle
      have h2 : 2 ^ (L + 1 - 53) ≤ z.natAbs :=
        le_trans (Nat.pow_le_pow_right (by norm_num) (by omega)) hLle
      have h3 : 1 ≤ z.natAbs / 2 ^ (L + 1 - 53) := (Nat.one_le_div_iff hpow).mpr h2
      have h4 : 1 ≤ m := by omega
      have : 0 < m * 2 ^ (L + 1 - 53) := Nat.mul_pos h4 hpow
      omega
    · simp only [hneg, decide_False, Bool.false_eq_true, if_false]
      decide
  · rw [if_neg hr0]
    have hrpos : 0 < m * 2 ^ (L + 1 - 53) := Nat.pos_of_ne_zero hr0
    have key := roundDouble_exact (decide (z < 0)) (m * 2 ^ (L + 1 - 53)) hrlt
      (shift_dvd m _ hm53)
    rw [if_neg hr0] at key
    by_cases hneg : z < 0
    · simp only [hneg, decide_True, if_true] at key ⊢
      show roundUnits (-((m * 2 ^ (L + 1 - 53) : Nat) : Int) + 0) = _
      rw [add_zero]
      unfold roundUnits
      have hlt : -((m * 2 ^ (L + 1 - 53) : Nat) : Int) < 0 := by
        have : (0 : Int) < ((m * 2 ^ (L + 1 - 53) : Nat) : Int) := by exact_mod_cast hrpos
        omega
      simp only [hlt, decide_True, Int.natAbs_neg, Int.natAbs_ofNat]
      exact key
    · simp only [hneg, decide_False, Bool.false_eq_true, if_false] at key ⊢
      show roundUnits (((m * 2 ^ (L + 1 - 53) : Nat) : Int) + 0) = _
      rw [add_zero]
      unfold roundUnits
      have hlt : ¬ ((m * 2 ^ (L + 1 - 53) : Nat) : Int) < 0 := by
        have : (0 : Int) < ((m * 2 ^ (L + 1 - 53) : Nat) : Int) := by exact_mod_cast hrpos
        omega
      simp only [hlt, decide_False, Int.natAbs_ofNat]
      exact key

theorem jsAdd_zero_closed {a b : JSNum} (ha : jsAdd a (.fin 0) = a) (hb : b ≠ .negZero) :
    jsAdd (jsAdd a b) (.fin 0) = jsAdd a b := by
  cases a with
  | nan => cases b <;> rfl
  | inf s =>
    cases b with
    | nan => rfl
    | inf t =>
      show jsAdd (if s = t then .inf s else .nan) (.fin 0) = if s = t then .inf s else .nan
      by_cases h : s = t
      · rw [if_pos h]; rfl
      · rw [if_neg h]; rfl
    | negZero => rfl
    | fin y => rfl
  | negZero => exact absurd ha (by intro h; cases h)
  | fin x =>
    cases b with
    | nan => rfl
    | inf t => rfl
    | negZero => exact absurd rfl hb
    | fin y => exact roundUnits_add_zero (x + y)

theorem foldl_jsAdd_filter {α : Type} (f : α → JSNum) (p : α → Bool)
    (hf : ∀ x, f x ≠ .negZero) (hp : ∀ x, p x = false → f x = .fin 0) :
    ∀ (l : List α) (acc : JSNum), jsAdd acc (.fin 0) = acc →
      (l.map f).foldl jsAdd acc = ((l.filter p).map f).foldl jsAdd acc := by
  intro l
  induction l with
  | nil => intro acc _; rfl
  | cons x xs ih =>
    intro acc hacc
    by_cases hx : p x = true
    · rw [List.filter_cons_of_pos hx]
      simp only [List.map_cons, List.foldl_cons]
      exact ih _ (jsAdd_zero_closed hacc (hf x))
    · have hx' : p x = false := by simpa using hx
      rw [List.filter_cons_of_neg hx]
      simp only [List.map_cons, List.foldl_cons]
      rw [hp x hx', hacc]
      exact ih _ hacc

theorem orZero_ne_negZero (x : JSNum) : orZero x ≠ .negZero := by
  cases x <;> simp [orZero]

theorem numberAt_ne_negZero (grid : Grid) (rc : Nat × Nat) : numberAt grid rc ≠ .negZero := by
  unfold numberAt
  split
  · exact orZero_ne_negZero _
  · simp

theorem orZero_of_not_numeric {v : JSVal} (h : isNumeric v = false) :
    orZero (parseFloat v) = .fin 0 := by
  have : parseFloat v = .nan := by simpa [isNumeric] using h
  rw [this]; rfl

theorem numberAt_of_not_numericAt {grid : Grid} {rc : Nat × Nat} (h : numericAt grid rc = false) :
    numberAt grid rc = .fin 0 := by
  unfold numericAt at h
  unfold numberAt
  split at h
  · exact orZero_of_not_numeric h
  · rfl


/-- C8: for a grid of fewer than `2^32` rows (as every JavaScript array) and a formula
that starts with "=SUM" whose first range reference `L1 n1 : L2 n2` has single letters
and lies inside the grid (both row numbers are rows of the grid and every cell of the
rectangle exists), the result is the number that adds up what the cells contribute, a
cell whose value is empty or not numeric contributes `0`, the result is the same sum
taken over the numeric cells only, and it is neither "ERROR" nor "INVALID". -/
theorem non_numeric_cells_contribute_zero (grid : Grid) (formula : String) (L1 L2 : Char)
    (ds1 ds2 : List Char)
    (hsum : startsWith formula "=SUM" = true)
    (hmatch : rangeMatch formula.toList = some (String.mk (L1 :: ds1), String.mk (L2 :: ds2)))
    (hL1 : L1.isUpper = true) (hL2 : L2.isUpper = true)
    (hd1 : IsRun Char.isDigit ds1) (hd2 : IsRun Char.isDigit ds2)
    (hrows : 1 ≤ digitsVal ds1 ∧ digitsVal ds1 ≤ grid.length ∧ digitsVal ds2 ≤ grid.length)
    (hgrid : grid.length < 2 ^ 32)
    (hcells : ∀ rc ∈ rectangle (digitsVal ds1) (digitsVal ds2) (L1.toNat - 65) (L2.toNat - 65),
      (cellAt grid rc.1 rc.2).isSome = true) :
    evaluateFormula grid formula
      = some (.num (sumValues
          ((rectangle (digitsVal ds1) (digitsVal ds2) (L1.toNat - 65) (L2.toNat - 65)).map
            (numberAt grid))))
    ∧ (∀ cell : Cell, cell.value = .str "" ∨ isNumeric cell.value = false →
        orZero (parseFloat cell.value) = .fin 0)
    ∧ sumValues
        ((rectangle (digitsVal ds1) (digitsVal ds2) (L1.toNat - 65) (L2.toNat - 65)).map
          (numberAt grid))
      = sumValues
        (((rectangle (digitsVal ds1) (digitsVal ds2) (L1.toNat - 65) (L2.toNat - 65)).filter
          (numericAt grid)).map (numberAt grid))
    ∧ evaluateFormula grid formula ≠ some (.str "ERROR")
    ∧ evaluateFormula grid formula ≠ some (.str "INVALID") := by
  have h32 : (2 : Nat) ^ 32 ≤ 2 ^ 53 := Nat.pow_le_pow_right (by norm_num) (by norm_num)
  have hval : evaluateFormula grid formula
      = some (.num (sumValues
          ((rectangle (digitsVal ds1) (digitsVal ds2) (L1.toNat - 65) (L2.toNat - 65)).map
            (numberAt grid)))) := by
    rw [evaluateFormula_rectangle (numberAt grid) (startsWith_eq_of_startsWith_sum hsum) hmatch
      hL1 hL2 hd1 hd2 hrows.1 (by omega) (by omega)
      (by
        intro rc hrc
        obtain ⟨cell, hcell⟩ := Option.isSome_iff_exists.mp (hcells rc hrc)
        exact ⟨cell, hcell, by unfold numberAt; rw [hcell]⟩), hsum]
    rfl
  refine ⟨hval, ?_, ?_, ?_, ?_⟩
  · rintro cell (h | h)
    · rw [h]; decide
    · exact orZero_of_not_numeric h
  · exact foldl_jsAdd_filter (numberAt grid) (numericAt grid) (numberAt_ne_negZero grid)
      (fun rc h => numberAt_of_not_numericAt h) _ _ (by decide)
  · rw [hval]; intro h; cases h
  · rw [hval]; intro h; cases h

/-- C8, witness: A1 = "x", A2 = "4" and "=SUM(A1:A2)" give 4. -/
theorem non_numeric_cells_contribute_zero_witness :
    evaluateFormula (gridOf [["x"], ["4"]]) "=SUM(A1:A2)" = some (.num (.ofInt 4)) :=
  Eq.trans (non_numeric_cells_contribute_zero (gridOf [["x"], ["4"]]) "=SUM(A1:A2)" 'A' 'A'
    ['1'] ['2'] (by decide) (by decide) (by decide) (by decide)
    ⟨by decide, by decide⟩ ⟨by decide, by decide⟩ ⟨by decide, by decide, by decide⟩
    (by decide)
    (by
      intro rc hrc
      have hrc' : rc ∈ [(0, 0), (1, 0)] := hrc
      simp only [List.mem_cons, List.mem_singleton, List.not_mem_nil, or_false] at hrc'
      rcases hrc' with rfl | rfl <;> rfl)).1 (by decide)


/-! ## Literal edits -/

theorem setCell_isSome {grid : Grid} {row col : Nat} (cell : Cell)
    (h : (cellAt grid row col).isSome = true) : ∃ g, setCell grid row col cell = some g := by
  unfold cellAt at h
  unfold setCell
  split at h
  · simp at h
  · rename_i cells hrow
    have hcol : col < cells.length := by
      obtain ⟨c, hc⟩ := Option.isSome_iff_exists.mp h
      exact (List.getElem?_eq_some.mp hc).1
    simp only [hcol, if_true]
    exact ⟨_, rfl⟩

theorem cellAt_setCell {grid g : Grid} {row col : Nat} {cell : Cell}
    (h : setCell grid row col cell = some g) (r c : Nat) :
    cellAt g r c = if r = row ∧ c = col then some cell else cellAt grid r c := by
  unfold setCell at h
  split at h
  · exact absurd h (by simp)
  · rename_i cells hrow
    split at h
    · rename_i hcol
      have hg : g = grid.set row (cells.set col cell) := by
        simpa using h.symm
      have hrlt : row < grid.length := (List.getElem?_eq_some.mp hrow).1
      subst hg
      unfold cellAt
      by_cases hr : r = row
      · subst hr
        rw [List.getElem?_set_self hrlt, hrow]
        simp only [true_and]
        by_cases hc : c = col
        · subst hc
          simp [List.getElem?_set_self hcol]
        · simp [hc, List.getElem?_set_ne (Ne.symm hc)]
      · rw [List.getElem?_set_ne (Ne.symm hr)]
        simp [hr]
    · exact absurd h (by simp)

/-- C13: for every state and every coordinate inside the grid, `handleCellChange` with
the text `t` completes and leaves exactly `{ value: t, formula: "" }` in that cell. -/
theorem literal_edit_sets_the_cell (s : State) (row col : Nat) (t : String)
    (h : (cellAt s.grid row col).isSome = true) :
    ∃ s1, handleCellChange s row col t = some s1
      ∧ cellAt s1.grid row col = some ⟨.str t, ""⟩ := by
  obtain ⟨g, hg⟩ := setCell_isSome ⟨.str t, ""⟩ h
  refine ⟨saveUndoState { s with grid := g } g, by simp [handleCellChange, hg], ?_⟩
  show cellAt g row col = _
  rw [cellAt_setCell hg]
  simp

/-- C13, witness: the text "hello" typed in cell C5 of the initial grid. -/
theorem literal_edit_sets_the_cell_witness :
    ∃ s1, handleCellChange initialState 4 2 "hello" = some s1
      ∧ cellAt s1.grid 4 2 = some ⟨.str "hello", ""⟩ :=
  literal_edit_sets_the_cell initialState 4 2 "hello" (by decide)

/-- C14: for every state and every coordinate inside the grid, `handleCellChange`
completes and every cell at another coordinate is the cell it was, value and formula,
whatever its formula refers to: nothing is evaluated again. -/
theorem literal_edit_changes_one_cell (s : State) (row col : Nat) (t : String)
    (hin : (cellAt s.grid row col).isSome = true) :
    ∃ s1, handleCellChange s row col t = some s1
      ∧ ∀ r c, (r, c) ≠ (row, col) → cellAt s1.grid r c = cellAt s.grid r c := by
  obtain ⟨g, hg⟩ := setCell_isSome ⟨.str t, ""⟩ hin
  refine ⟨saveUndoState { s with grid := g } g, by simp [handleCellChange, hg], ?_⟩
  intro r c hne
  show cellAt g r c = _
  rw [cellAt_setCell hg]
  have : ¬ (r = row ∧ c = col) := fun ⟨h1, h2⟩ => hne (by rw [h1, h2])
  rw [if_neg this]

/-- C14, witness: B1 holds the formula "=SUM(A1:A1)", applied while A1 held "1"; the
text "2" typed in A1 leaves B1 at the value 1. -/
theorem literal_edit_changes_one_cell_witness :
    cellAt staleSum.grid 0 1 = some ⟨.num (.ofInt 1), "=SUM(A1:A1)"⟩
    ∧ ∃ s1, handleCellChange staleSum 0 0 "2" = some s1
        ∧ cellAt s1.grid 0 1 = some ⟨.num (.ofInt 1), "=SUM(A1:A1)"⟩ := by
  refine ⟨by decide, ?_⟩
  obtain ⟨s1, h1, h2⟩ := literal_edit_changes_one_cell staleSum 0 0 "2" (by decide)
  exact ⟨s1, h1, by rw [h2 0 1 (by decide)]; decide⟩


/-! ## Selection -/

theorem any_coordinate {l : List (Nat × Nat)} {row col : Nat} :
    l.any (fun sel => decide (sel.1 = row ∧ sel.2 = col)) = true ↔ (row, col) ∈ l := by
  rw [List.any_eq_true]
  constructor
  · rintro ⟨⟨a, b⟩, hmem, h⟩
    simp only [decide_eq_true_eq] at h
    obtain ⟨rfl, rfl⟩ := h
    exact hmem
  · intro h
    exact ⟨(row, col), h, by simp⟩

theorem multiSelect_handleMouseOver (s : State) (row col : Nat) (h : s.isDragging = true) :
    (handleMouseOver s row col).multiSelect
      = if (row, col) ∈ s.multiSelect then s.multiSelect else s.multiSelect ++ [(row, col)] := by
  unfold handleMouseOver
  rw [if_pos h]
  show (if (s.multiSelect.any fun sel => decide (sel.1 = row ∧ sel.2 = col)) = true
      then s.multiSelect else s.multiSelect ++ [(row, col)]) = _
  by_cases hm : (row, col) ∈ s.multiSelect
  · rw [if_pos (any_coordinate.mpr hm), if_pos hm]
  · rw [if_neg (fun h' => hm (any_coordinate.mp h')), if_neg hm]

/-- C16: while dragging, `handleMouseOver(row, col)` leaves `multiSelect` as it is when
the cell is in it already, and otherwise appends the cell at the end; either way the
cells that were selected stay at the front in their order, and nothing else in the
state changes. -/
theorem drag_appends_if_absent (s : State) (row col : Nat) (h : s.isDragging = true) :
    ((row, col) ∈ s.multiSelect → handleMouseOver s row col = s)
    ∧ ((row, col) ∉ s.multiSelect →
        handleMouseOver s row col = { s with multiSelect := s.multiSelect ++ [(row, col)] })
    ∧ s.multiSelect <+: (handleMouseOver s row col).multiSelect := by
  have hms := multiSelect_handleMouseOver s row col h
  have hst : handleMouseOver s row col
      = { s with multiSelect := (handleMouseOver s row col).multiSelect } := by
    unfold handleMouseOver
    rw [if_pos h]
  refine ⟨?_, ?_, ?_⟩
  · intro hm
    rw [hst, hms, if_pos hm]
  · intro hm
    rw [hst, hms, if_neg hm]
  · rw [hms]
    split
    · exact List.prefix_refl _
    · exact List.prefix_append _ _

/-- C16, witness: mouse down on (2,2), then over (2,3), then over (2,2) again. -/
theorem drag_appends_if_absent_witness :
    (handleMouseOver (handleMouseOver (handleMouseDown initialState 2 2) 2 3) 2 2).multiSelect
      = [(2, 2), (2, 3)] := by
  have h := (drag_appends_if_absent (handleMouseOver (handleMouseDown initialState 2 2) 2 3) 2 2
    (by decide)).1 (by decide)
  rw [h]
  decide

/-- C15: in every state the component reaches, by the selection handlers or any other,
`multiSelect` holds no coordinate twice. -/
theorem multiSelect_has_no_duplicate (s : State) (h : Reachable s) : s.multiSelect.Nodup := by
  induction h with
  | initial => exact List.nodup_nil
  | byCellClick row col _ ih =>
    unfold handleCellClick
    split
    · exact ih
    · exact List.nodup_nil
  | byMouseDown row col _ _ => exact List.nodup_singleton _
  | @byMouseOver s row col _ ih =>
    by_cases hd : s.isDragging = true
    · rw [multiSelect_handleMouseOver s row col hd]
      split
      · exact ih
      · rename_i hm
        exact List.nodup_append.mpr ⟨ih, List.nodup_singleton _, by
          intro x hx hx'
          rw [List.mem_singleton] at hx'
          exact hm (hx' ▸ hx)⟩
    · unfold handleMouseOver
      rw [if_neg hd]
      exact ih
  | byMouseUp _ ih => exact ih
  | byDragMarker _ ih => exact ih
  | byFormulaChange text _ ih => exact ih
  | byCellChange row col value _ hstep ih =>
    unfold handleCellChange at hstep
    split at hstep
    · exact absurd hstep (by simp)
    · cases hstep; exact ih
  | byApplyFormula _ hstep ih =>
    unfold applyFormula at hstep
    split at hstep
    · cases hstep; exact ih
    · split at hstep
      · split at hstep
        · exact absurd hstep (by simp)
        · split at hstep
          · exact absurd hstep (by simp)
          · cases hstep; exact ih
      · exact absurd hstep (by simp)
  | @byUndo s _ ih =>
    unfold undo
    split
    · exact ih
    · exact ih
  | @byRedo s _ ih =>
    unfold redo
    split
    · exact ih
    · exact ih

/-- C15, witness: the state after mouse down on (2,2), over (2,3) and over (2,2). -/
theorem multiSelect_has_no_duplicate_witness :
    (handleMouseOver (handleMouseOver (handleMouseDown initialState 2 2) 2 3) 2 2).multiSelect.Nodup :=
  multiSelect_has_no_duplicate _
    (Reachable.byMouseOver 2 2 (Reachable.byMouseOver 2 3 (Reachable.byMouseDown 2 2 Reachable.initial)))


/-! ## What every reachable state keeps -/

theorem reachable_invariant (G : Grid → Prop) (J : JSONText → Prop) (W : Cell → Prop)
    (hinit : G initialState.grid)
    (hset : ∀ (g g1 : Grid) (row col : Nat) (cell : Cell),
      G g → W cell → setCell g row col cell = some g1 → G g1)
    (hstr : ∀ g, G g → J (JSON.stringify g))
    (hparse : ∀ t, J t → G (JSON.parse t))
    (hlit : ∀ t : String, W ⟨.str t, ""⟩)
    (hform : ∀ (f : String) (v : JSVal), startsWith f "=" = true ∨ v = .str f → W ⟨v, f⟩)
    {s : State} (h : Reachable s) :
    G s.grid ∧ (∀ t ∈ s.undoStack, J t) ∧ (∀ t ∈ s.redoStack, J t) := by
  have hsave : ∀ (t : State) (g : Grid),
      (∀ x ∈ t.undoStack, J x) → G g →
      G (saveUndoState { t with grid := g } g).grid
      ∧ (∀ x ∈ (saveUndoState { t with grid := g } g).undoStack, J x)
      ∧ (∀ x ∈ (saveUndoState { t with grid := g } g).redoStack, J x) := by
    intro t g hu hg
    refine ⟨hg, ?_, ?_⟩
    · intro x hx
      simp only [saveUndoState, List.mem_append, List.mem_singleton] at hx
      rcases hx with hx | rfl
      · exact hu x hx
      · exact hstr g hg
    · intro x hx
      simp [saveUndoState] at hx
  induction h with
  | initial => exact ⟨hinit, by simp [initialState], by simp [initialState]⟩
  | byCellClick row col _ ih =>
    unfold handleCellClick
    split <;> exact ih
  | byMouseDown row col _ ih => exact ih
  | @byMouseOver s row col _ ih =>
    unfold handleMouseOver
    split <;> exact ih
  | byMouseUp _ ih => exact ih
  | byDragMarker _ ih => exact ih
  | byFormulaChange text _ ih => exact ih
  | byCellChange row col value _ hstep ih =>
    unfold handleCellChange at hstep
    split at hstep
    · exact absurd hstep (by simp)
    · rename_i g hg
      cases hstep
      exact hsave _ g ih.2.1 (hset _ _ _ _ _ ih.1 (hlit value) hg)
  | byApplyFormula _ hstep ih =>
    unfold applyFormula at hstep
    split at hstep
    · cases hstep; exact ih
    · split at hstep
      · rename_i formula hformula
        split at hstep
        · exact absurd hstep (by simp)
        · rename_i value hvalue
          split at hstep
          · exact absurd hstep (by simp)
          · rename_i g hg
            cases hstep
            refine hsave _ g ih.2.1 (hset _ _ _ _ _ ih.1 (hform formula value ?_) hg)
            by_cases hf : startsWith formula "=" = true
            · exact Or.inl hf
            · rw [if_neg hf] at hvalue
              exact Or.inr (Option.some.inj hvalue).symm
      · exact absurd hstep (by simp)
  | @byUndo s _ ih =>
    unfold undo
    split
    · exact ih
    · rename_i last hlast
      refine ⟨hparse _ (ih.2.1 _ (List.mem_of_getLast?_eq_some hlast)), ?_, ?_⟩
      · intro x hx
        exact ih.2.1 x (List.dropLast_subset _ hx)
      · intro x hx
        simp only [List.mem_append, List.mem_singleton] at hx
        rcases hx with hx | rfl
        · exact ih.2.2 x hx
        · exact hstr _ ih.1
  | @byRedo s _ ih =>
    unfold redo
    split
    · exact ih
    · rename_i next hnext
      refine ⟨hparse _ (ih.2.2 _ (List.mem_of_getLast?_eq_some hnext)), ?_, ?_⟩
      · intro x hx
        simp only [List.mem_append, List.mem_singleton] at hx
        rcases hx with hx | rfl
        · exact ih.2.1 x hx
        · exact hstr _ ih.1
      · intro x hx
        exact ih.2.2 x (List.dropLast_subset _ hx)

theorem hasShape_setCell {g g1 : Grid} {row col : Nat} {cell : Cell}
    (hg : HasShape g) (h : setCell g row col cell = some g1) : HasShape g1 := by
  unfold setCell at h
  split at h
  · exact absurd h (by simp)
  · rename_i cells hrow
    split at h
    · have e : g1 = g.set row (cells.set col cell) := by simpa using h.symm
      subst e
      refine ⟨by rw [List.length_set]; exact hg.1, ?_⟩
      intro x hx
      rcases List.mem_or_eq_of_mem_set hx with hx | rfl
      · exact hg.2 x hx
      · rw [List.length_set]
        exact hg.2 cells (List.getElem?_mem hrow)
    · exact absurd h (by simp)

theorem hasShape_map {α β : Type} (f : α → β) {g : List (List α)} (hg : HasShape g) :
    HasShape (g.map (fun cells => cells.map f)) := by
  refine ⟨by rw [List.length_map]; exact hg.1, ?_⟩
  intro x hx
  obtain ⟨cells, hcells, rfl⟩ := List.mem_map.mp hx
  rw [List.length_map]
  exact hg.2 cells hcells

/-- C18: in every state the component reaches, the current grid and every snapshot on
`undoStack` and on `redoStack` have exactly 20 rows of exactly 10 cells. -/
theorem grid_is_never_resized (s : State) (h : Reachable s) :
    HasShape s.grid ∧ (∀ t ∈ s.undoStack, HasShape t) ∧ (∀ t ∈ s.redoStack, HasShape t) :=
  reachable_invariant HasShape HasShape (fun _ => True)
    ⟨by simp [initialState], by
      intro x hx
      rw [List.eq_of_mem_replicate hx]
      simp⟩
    (fun _ _ _ _ _ hg _ h => hasShape_setCell hg h)
    (fun _ hg => hasShape_map _ hg)
    (fun _ ht => hasShape_map _ ht)
    (fun _ => trivial) (fun _ _ _ => trivial) h

/-- C18, witness: the state after an edit, an undo and a redo. -/
theorem grid_is_never_resized_witness :
    HasShape (redo (undo edited)).grid
    ∧ (∀ t ∈ (redo (undo edited)).undoStack, HasShape t)
    ∧ (∀ t ∈ (redo (undo edited)).redoStack, HasShape t) :=
  grid_is_never_resized _
    (Reachable.byRedo (Reachable.byUndo
      (Reachable.byCellChange (s := initialState) 0 0 "5" Reachable.initial rfl)))


theorem formulaOk_setCell {g g1 : Grid} {row col : Nat} {cell : Cell}
    (hg : ∀ cells ∈ g, ∀ c ∈ cells, Cell.FormulaOk c) (hcell : cell.FormulaOk)
    (h : setCell g row col cell = some g1) : ∀ cells ∈ g1, ∀ c ∈ cells, Cell.FormulaOk c := by
  unfold setCell at h
  split at h
  · exact absurd h (by simp)
  · rename_i cells0 hrow
    split at h
    · have e : g1 = g.set row (cells0.set col cell) := by simpa using h.symm
      subst e
      intro cells hcells c hc
      rcases List.mem_or_eq_of_mem_set hcells with hcells | rfl
      · exact hg cells hcells c hc
      · rcases List.mem_or_eq_of_mem_set hc with hc | rfl
        · exact hg cells0 (List.getElem?_mem hrow) c hc
        · exact hcell
    · exact absurd h (by simp)

theorem formulaOk_of_cellAt {g : Grid} (hg : ∀ cells ∈ g, ∀ c ∈ cells, Cell.FormulaOk c)
    {r c : Nat} {cell : Cell} (h : cellAt g r c = some cell) : cell.FormulaOk := by
  unfold cellAt at h
  split at h
  · exact absurd h (by simp)
  · rename_i cells hrow
    exact hg cells (List.getElem?_mem hrow) cell (List.getElem?_mem h)

/-- C17 as stated fails for a text without "=": after A1 is clicked, "hello" typed in the
formula bar and applied, the formula of A1 is "hello", which is not empty and does not
begin with "=". -/
theorem literal_text_is_stored_as_formula :
    ∃ s, applyFormula (formulaTyped "hello") = some s ∧ Reachable s
      ∧ cellAt s.grid 0 0 = some ⟨.str "hello", "hello"⟩
      ∧ "hello" ≠ "" ∧ startsWith "hello" "=" = false :=
  ⟨_, rfl,
    Reachable.byApplyFormula (s := formulaTyped "hello")
      (Reachable.byFormulaChange "hello" (Reachable.byCellClick 0 0 Reachable.initial)) rfl,
    by decide, by decide, by decide⟩

/-- C17, amended: in every state the component reaches, the formula of every cell is the
empty string, a text that begins with "=", or the literal text `applyFormula` stored, which
is then the value of the cell as well. -/
theorem formula_is_empty_or_formula_or_literal (s : State) (h : Reachable s) :
    ∀ r c cell, cellAt s.grid r c = some cell →
      cell.formula = "" ∨ startsWith cell.formula "=" = true ∨ cell.value = .str cell.formula := by
  have key := reachable_invariant
    (fun g => ∀ cells ∈ g, ∀ c ∈ cells, Cell.FormulaOk c)
    (fun t => ∀ cells ∈ t, ∀ c ∈ cells, JSONCell.FormulaOk c)
    Cell.FormulaOk
    (by
      intro cells hcells c hc
      rw [initialState, List.eq_of_mem_replicate hcells] at *
      rw [List.eq_of_mem_replicate hc]
      exact Or.inl rfl)
    (fun _ _ _ _ _ hg hcell hset => formulaOk_setCell hg hcell hset)
    (by
      intro g hg cells hcells c hc
      obtain ⟨cells0, hcells0, rfl⟩ := List.mem_map.mp hcells
      obtain ⟨c0, hc0, rfl⟩ := List.mem_map.mp hc
      rcases hg cells0 hcells0 c0 hc0 with h1 | h1 | h1
      · exact Or.inl h1
      · exact Or.inr (Or.inl h1)
      · refine Or.inr (Or.inr ?_)
        show c0.value.toJSON = _
        rw [h1]; rfl)
    (by
      intro t ht cells hcells c hc
      obtain ⟨cells0, hcells0, rfl⟩ := List.mem_map.mp hcells
      obtain ⟨c0, hc0, rfl⟩ := List.mem_map.mp hc
      rcases ht cells0 hcells0 c0 hc0 with h1 | h1 | h1
      · exact Or.inl h1
      · exact Or.inr (Or.inl h1)
      · refine Or.inr (Or.inr ?_)
        show c0.value.toJS = _
        rw [h1]; rfl)
    (fun _ => Or.inl rfl)
    (by
      intro f v hv
      rcases hv with hv | hv
      · exact Or.inr (Or.inl hv)
      · exact Or.inr (Or.inr hv))
    h
  intro r c cell hcell
  exact formulaOk_of_cellAt key.1 hcell

/-- C17, witness: the cell B1 of the state in which it holds "=SUM(A1:A1)". -/
theorem formula_is_empty_or_formula_or_literal_witness :
    cellAt staleSum.grid 0 1 = some ⟨.num (.ofInt 1), "=SUM(A1:A1)"⟩
    ∧ ("=SUM(A1:A1)" = "" ∨ startsWith "=SUM(A1:A1)" "=" = true
        ∨ JSVal.num (.ofInt 1) = .str "=SUM(A1:A1)") :=
  ⟨by decide,
   formula_is_empty_or_formula_or_literal staleSum
    (Reachable.byApplyFormula
      (s := handleFormulaChange
        (handleCellClick ((handleCellChange initialState 0 0 "1").getD initialState) 0 1)
        "=SUM(A1:A1)")
      (Reachable.byFormulaChange _ (Reachable.byCellClick 0 1
        (Reachable.byCellChange (s := initialState) 0 0 "1" Reachable.initial rfl))) rfl)
    0 1 ⟨.num (.ofInt 1), "=SUM(A1:A1)"⟩ (by decide)⟩


/-! ## Applying a formula -/

/-- C19: for every state with a selected cell inside the grid and a formula-bar text `f`
that starts with "=", `applyFormula` completes exactly when the evaluation of `f` on
the grid before the write returns; the selected cell is then `{ value, formula: f }`
with the value that evaluation returned, and every other cell is the cell it was. -/
theorem apply_formula_stores_the_value (s : State) (r c : Nat) (f : String)
    (hsel : s.selectedCell = some (r, c)) (hin : (cellAt s.grid r c).isSome = true)
    (hbar : s.formula = .str f) (heq : startsWith f "=" = true) :
    (∀ v, evaluateFormula s.grid f = some v →
      ∃ s1, applyFormula s = some s1 ∧ cellAt s1.grid r c = some ⟨v, f⟩
        ∧ ∀ r1 c1, (r1, c1) ≠ (r, c) → cellAt s1.grid r1 c1 = cellAt s.grid r1 c1)
    ∧ (evaluateFormula s.grid f = none → applyFormula s = none) := by
  constructor
  · intro v hv
    obtain ⟨g, hg⟩ := setCell_isSome ⟨v, f⟩ hin
    refine ⟨saveUndoState { s with grid := g } g, ?_, ?_, ?_⟩
    · unfold applyFormula
      rw [hsel]
      simp only [hbar, heq, if_true, hv, hg]
    · show cellAt g r c = _
      rw [cellAt_setCell hg]
      simp
    · intro r1 c1 hne
      show cellAt g r1 c1 = _
      rw [cellAt_setCell hg]
      have : ¬ (r1 = r ∧ c1 = c) := fun ⟨h1, h2⟩ => hne (by rw [h1, h2])
      rw [if_neg this]
  · intro hv
    unfold applyFormula
    rw [hsel]
    simp only [hbar, heq, if_true, hv]

/-- C19, witness: A1 holds "1", B1 is selected and "=SUM(A1:A1)" is applied. -/
theorem apply_formula_stores_the_value_witness :
    ∃ s1, applyFormula sumTyped = some s1
      ∧ cellAt s1.grid 0 1 = some ⟨.num (.ofInt 1), "=SUM(A1:A1)"⟩
      ∧ ∀ r1 c1, (r1, c1) ≠ (0, 1) → cellAt s1.grid r1 c1 = cellAt sumTyped.grid r1 c1 :=
  (apply_formula_stores_the_value sumTyped 0 1 "=SUM(A1:A1)" (by decide) (by decide)
    (by decide) (by decide)).1 (.num (.ofInt 1)) (by decide)


/-! ## What `parseRange` returns -/

theorem rowsFrom_nil (r : Int) (n : Nat) : rowsFrom r n [] = [] := by
  unfold rowsFrom
  induction n with
  | zero => rfl
  | succ n ih => rw [List.range_succ, List.flatMap_append, ih]; rfl

theorem rectangle_pairwise (n1 n2 c1 c2 : Nat) :
    (rectangle n1 n2 c1 c2).Pairwise (fun a b => a.1 < b.1 ∨ (a.1 = b.1 ∧ a.2 < b.2)) := by
  unfold rectangle
  generalize n2 + 1 - n1 = a
  induction a with
  | zero => simp
  | succ a ih =>
    rw [List.range_succ, List.flatMap_append, List.pairwise_append]
    refine ⟨ih, ?_, ?_⟩
    · simp only [List.flatMap_cons, List.flatMap_nil, List.append_nil]
      rw [List.pairwise_map]
      exact (List.pairwise_lt_range _).imp (fun h => Or.inr ⟨rfl, by simpa using h⟩)
    · intro x hx y hy
      simp only [List.mem_flatMap, List.mem_map, List.mem_range, List.mem_singleton] at hx hy
      obtain ⟨i, hi, j, _, rfl⟩ := hx
      obtain ⟨i1, rfl, j1, _, rfl⟩ := hy
      exact Or.inl (by simp; omega)

theorem mem_rectangle_iff {n1 n2 c1 c2 r c : Nat} (hn : 1 ≤ n1) :
    (r, c) ∈ rectangle n1 n2 c1 c2
      ↔ n1 - 1 ≤ r ∧ r + 1 ≤ n2 ∧ c1 ≤ c ∧ c ≤ c2 := by
  rw [mem_rectangle]
  constructor
  · rintro ⟨i, hi, j, hj, h⟩
    simp only [Prod.mk.injEq] at h
    omega
  · rintro ⟨h1, h2, h3, h4⟩
    exact ⟨r - (n1 - 1), by omega, c - c1, by omega, by simp only [Prod.mk.injEq]; omega⟩

/-- C11 as stated fails beyond `2^53`: for the reference A9007199254740993 taken as both
ends, `parseInt` rounds the number to 9007199254740992 and `parseRange` returns the one
pair with row 9007199254740991, where the claim has row 9007199254740992. -/
theorem parseRange_rounds_beyond_two_pow_53 :
    parseRange "A9007199254740993" "A9007199254740993" = some [(.ofInt 9007199254740991, 0)]
    ∧ parseRange "A9007199254740993" "A9007199254740993"
        ≠ some ((rectangle 9007199254740993 9007199254740993 0 0).map
            (fun rc => (JSNum.ofInt (rc.1 : Nat), ((rc.2 : Nat) : Int)))) := by
  constructor <;> decide

/-- C11, amended: for references `L1 n1` and `L2 n2` with single uppercase letters
`L1 ≤ L2` and row numbers `1 ≤ n1 ≤ n2 ≤ 2^53`, a reference decodes to the row
`number - 1` and the column `letter - 'A'`, and `parseRange` returns the coordinates
`(r, c)` of the rectangle `n1 - 1 ≤ r ≤ n2 - 1`, `code(L1) - 65 ≤ c ≤ code(L2) - 65`:
exactly those, in increasing order by row and then by column, so each once. -/
theorem parseRange_lists_the_rectangle (L1 L2 : Char) (ds1 ds2 : List Char)
    (hL1 : L1.isUpper = true) (hL2 : L2.isUpper = true)
    (hd1 : IsRun Char.isDigit ds1) (hd2 : IsRun Char.isDigit ds2)
    (hcols : L1.toNat ≤ L2.toNat)
    (hrows : 1 ≤ digitsVal ds1 ∧ digitsVal ds1 ≤ digitsVal ds2)
    (hbound : digitsVal ds2 ≤ 2 ^ 53) :
    (refRow (String.mk (L1 :: ds1)) = .ofInt ((digitsVal ds1 : Int) - 1)
      ∧ refCol (String.mk (L1 :: ds1)) = some ((L1.toNat : Int) - 65))
    ∧ parseRange (String.mk (L1 :: ds1)) (String.mk (L2 :: ds2))
        = some ((rectangle (digitsVal ds1) (digitsVal ds2) (L1.toNat - 65) (L2.toNat - 65)).map
            (fun rc => (JSNum.ofInt (rc.1 : Nat), ((rc.2 : Nat) : Int))))
    ∧ (∀ r c : Nat,
        (r, c) ∈ rectangle (digitsVal ds1) (digitsVal ds2) (L1.toNat - 65) (L2.toNat - 65)
          ↔ digitsVal ds1 - 1 ≤ r ∧ r ≤ digitsVal ds2 - 1
            ∧ L1.toNat - 65 ≤ c ∧ c ≤ L2.toNat - 65)
    ∧ (rectangle (digitsVal ds1) (digitsVal ds2) (L1.toNat - 65) (L2.toNat - 65)).Pairwise
        (fun a b => a.1 < b.1 ∨ (a.1 = b.1 ∧ a.2 < b.2)) := by
  have h1 : digitsVal ds1 ≤ 2 ^ 53 := le_trans hrows.2 hbound
  refine ⟨⟨refRow_exact hL1 hd1 h1, refCol_exact ds1 hL1⟩, ?_, ?_, rectangle_pairwise _ _ _ _⟩
  · rw [parseRange_exact hL1 hL2 hd1 hd2 h1 hbound, rowsFrom_eq_rectangle _ _ hL1 hL2 hrows.1]
  · intro r c
    rw [mem_rectangle_iff hrows.1]
    omega

/-- C11, witness: `parseRange("A1", "B2")` is (0,0), (0,1), (1,0), (1,1), and "C5"
decodes to row 4 and column 2. -/
theorem parseRange_lists_the_rectangle_witness :
    parseRange "A1" "B2" = some [(.ofInt 0, 0), (.ofInt 0, 1), (.ofInt 1, 0), (.ofInt 1, 1)]
    ∧ refRow "C5" = .ofInt 4 ∧ refCol "C5" = some 2 :=
  ⟨Eq.trans (parseRange_lists_the_rectangle 'A' 'B' ['1'] ['2'] (by decide) (by decide)
      ⟨by decide, by decide⟩ ⟨by decide, by decide⟩ (by decide) ⟨by decide, by decide⟩
      (by decide)).2.1 (by decide),
   by decide, by decide⟩

/-- C12 as stated fails beyond `2^53`: the end reference A9007199254740992 precedes the
start reference A9007199254740993 on the row axis, but both numbers are the same double,
and `parseRange` returns one pair, not the empty sequence. -/
theorem reversed_range_rounds_to_one_row :
    parseRange "A9007199254740993" "A9007199254740992" = some [(.ofInt 9007199254740991, 0)]
    ∧ parseRange "A9007199254740993" "A9007199254740992" ≠ some [] := by
  constructor <;> decide

/-- C12, amended: for references `L1 n1` and `L2 n2` with single uppercase letters and
row numbers of at most `2^53`, where the end reference precedes the start reference on
the row axis (`n2 < n1`) or on the column axis (`L2 < L1`), `parseRange` returns the
empty sequence. -/
theorem reversed_range_is_empty (L1 L2 : Char) (ds1 ds2 : List Char)
    (hL1 : L1.isUpper = true) (hL2 : L2.isUpper = true)
    (hd1 : IsRun Char.isDigit ds1) (hd2 : IsRun Char.isDigit ds2)
    (hbound : digitsVal ds1 ≤ 2 ^ 53 ∧ digitsVal ds2 ≤ 2 ^ 53)
    (hrev : digitsVal ds2 < digitsVal ds1 ∨ L2.toNat < L1.toNat) :
    parseRange (String.mk (L1 :: ds1)) (String.mk (L2 :: ds2)) = some [] := by
  rw [parseRange_exact hL1 hL2 hd1 hd2 hbound.1 hbound.2]
  rcases hrev with h | h
  · have e : ((digitsVal ds2 : Int) - 1 + 1 - ((digitsVal ds1 : Int) - 1)).toNat = 0 := by omega
    rw [e]
    rfl
  · have e : colsOf (some ((L1.toNat : Int) - 65)) (some ((L2.toNat : Int) - 65)) = [] := by
      unfold colsOf
      have : ((L2.toNat : Int) - 65 - ((L1.toNat : Int) - 65) + 1).toNat = 0 := by omega
      simp only [this, List.range_zero, List.map_nil]
    rw [e, rowsFrom_nil]

/-- C12, witness: `parseRange("B2", "A1")` is empty. -/
theorem reversed_range_is_empty_witness : parseRange "B2" "A1" = some [] :=
  reversed_range_is_empty 'B' 'A' ['2'] ['1'] (by decide) (by decide)
    ⟨by decide, by decide⟩ ⟨by decide, by decide⟩ ⟨by decide, by decide⟩
    (Or.inl (by decide))


/-! ## Evaluation that fails, and evaluation that never returns -/

theorem mapM_eq_none_of_mem {α β : Type} (f : α → Option β) :
    ∀ (l : List α) (x : α), x ∈ l → f x = none → l.mapM f = none := by
  intro l
  induction l with
  | nil => intro x hx; simp at hx
  | cons y ys ih =>
    intro x hx hfx
    rw [List.mapM_cons]
    cases hy : f y with
    | none => rfl
    | some b =>
      have hx' : x ∈ ys := by
        rcases List.mem_cons.mp hx with rfl | h
        · rw [hfx] at hy; cases hy
        · exact h
      rw [ih x hx' hfx]
      rfl

theorem mem_rowsFrom {r0 : Int} {n : Nat} {cols : List Int} {i : Nat} {c : Int}
    (hi : i < n) (hc : c ∈ cols) : (JSNum.ofInt (r0 + (i : Int)), c) ∈ rowsFrom r0 n cols := by
  unfold rowsFrom
  rw [List.mem_flatMap]
  exact ⟨i, List.mem_range.mpr hi, List.mem_map.mpr ⟨c, hc, rfl⟩⟩

theorem mem_colsOf {a b c : Int} (h1 : a ≤ c) (h2 : c ≤ b) : c ∈ colsOf (some a) (some b) := by
  unfold colsOf
  rw [List.mem_map]
  exact ⟨(c - a).toNat, List.mem_range.mpr (by omega), by omega⟩

theorem toIndex_ofInt_neg {r : Int} (h : r < 0) : (JSNum.ofInt r).toIndex? = none := by
  have hup : (0 : Int) < ((unit : Nat) : Int) := by exact_mod_cast unit_pos
  have hneg : r * ((unit : Nat) : Int) < 0 := Int.mul_neg_of_neg_of_pos h hup
  simp only [JSNum.ofInt, JSNum.toIndex?]
  rw [if_neg (fun hh => absurd hh.1 (not_le.mpr hneg))]

theorem cellNumber_eq_none {grid : Grid} {r c : Int} (h : ¬ grid.Has r c) :
    cellNumber grid (JSNum.ofInt r, c) = none := by
  unfold cellNumber
  by_cases hr : r < 0
  · simp only [toIndex_ofInt_neg hr]
  · have hr0 : 0 ≤ r := not_lt.mp hr
    have e : r = ((r.toNat : Nat) : Int) := (Int.toNat_of_nonneg hr0).symm
    rw [e, toIndex_ofInt_natCast]
    simp only
    cases hrow : grid[r.toNat]? with
    | none => rfl
    | some cells =>
      simp only
      by_cases hc : c < 0
      · rw [if_pos hc]
      · rw [if_neg hc]
        cases hcell : cells[c.toNat]? with
        | none => rfl
        | some cell =>
          exfalso
          apply h
          refine ⟨hr0, not_lt.mp hc, ?_⟩
          unfold cellAt
          rw [hrow]
          simp only [hcell, Option.isSome_some]

theorem evaluateFormula_of_throw {grid : Grid} {formula startCell endCell : String}
    {cells : List (JSNum × Int)}
    (heq : startsWith formula "=" = true)
    (hmatch : rangeMatch formula.toList = some (startCell, endCell))
    (hrange : parseRange startCell endCell = some cells)
    (hvalues : cells.mapM (cellNumber grid) = none) :
    evaluateFormula grid formula = some (.str "ERROR") := by
  unfold evaluateFormula
  rw [heq, hmatch]
  simp only [Bool.not_true, Bool.false_eq_true, if_false]
  rw [hrange]
  simp only []
  rw [hvalues]

theorem out_of_grid_is_error {grid : Grid} {formula : String} {L1 L2 : Char}
    {ds1 ds2 : List Char}
    (heq : startsWith formula "=" = true)
    (hmatch : rangeMatch formula.toList = some (String.mk (L1 :: ds1), String.mk (L2 :: ds2)))
    (hL1 : L1.isUpper = true) (hL2 : L2.isUpper = true)
    (hd1 : IsRun Char.isDigit ds1) (hd2 : IsRun Char.isDigit ds2)
    (hbound : digitsVal ds1 ≤ 2 ^ 53 ∧ digitsVal ds2 ≤ 2 ^ 53)
    (hout : ∃ r c : Int, (digitsVal ds1 : Int) - 1 ≤ r ∧ r ≤ (digitsVal ds2 : Int) - 1
      ∧ (L1.toNat : Int) - 65 ≤ c ∧ c ≤ (L2.toNat : Int) - 65 ∧ ¬ grid.Has r c) :
    evaluateFormula grid formula = some (.str "ERROR") := by
  obtain ⟨r, c, hr1, hr2, hc1, hc2, hno⟩ := hout
  refine evaluateFormula_of_throw heq hmatch
    (parseRange_exact hL1 hL2 hd1 hd2 hbound.1 hbound.2)
    (mapM_eq_none_of_mem _ _ (JSNum.ofInt r, c) ?_ (cellNumber_eq_none hno))
  have e : r = (digitsVal ds1 : Int) - 1 + ((r - ((digitsVal ds1 : Int) - 1)).toNat : Nat) := by
    omega
  rw [e]
  exact mem_rowsFrom (by omega) (mem_colsOf hc1 hc2)


theorem matchRangeAt_groups {cs : List Char} {a b : String}
    (h : matchRangeAt cs = some (a, b)) :
    ∃ l1 d1 l2 d2, a = String.mk (l1 ++ d1) ∧ b = String.mk (l2 ++ d2)
      ∧ IsRun Char.isUpper l1 ∧ IsRun Char.isDigit d1
      ∧ IsRun Char.isUpper l2 ∧ IsRun Char.isDigit d2 := by
  unfold matchRangeAt at h
  simp only at h
  split at h
  · rename_i r3 hr2
    split at h
    · exact absurd h (by simp)
    · rename_i hne
      simp only [not_or, List.isEmpty_iff] at hne
      obtain ⟨h1, h2, h3, h4⟩ := hne
      simp only [Option.some.injEq, Prod.mk.injEq] at h
      exact ⟨_, _, _, _, h.1.symm, h.2.symm,
        ⟨h1, fun c hc => List.mem_takeWhile_imp hc⟩, ⟨h2, fun c hc => List.mem_takeWhile_imp hc⟩,
        ⟨h3, fun c hc => List.mem_takeWhile_imp hc⟩, ⟨h4, fun c hc => List.mem_takeWhile_imp hc⟩⟩
  · exact absurd h (by simp)

theorem rangeMatch_groups {cs : List Char} {a b : String}
    (h : rangeMatch cs = some (a, b)) :
    ∃ l1 d1 l2 d2, a = String.mk (l1 ++ d1) ∧ b = String.mk (l2 ++ d2)
      ∧ IsRun Char.isUpper l1 ∧ IsRun Char.isDigit d1
      ∧ IsRun Char.isUpper l2 ∧ IsRun Char.isDigit d2 := by
  induction cs with
  | nil => simp [rangeMatch] at h
  | cons c cs ih =>
    unfold rangeMatch at h
    split at h
    · rename_i m hm
      cases h
      exact matchRangeAt_groups hm
    · exact ih h

theorem not_isUpper_of_isDigit {c : Char} (h : c.isDigit = true) : c.isUpper = false := by
  have hd := toNat_of_isDigit h
  cases hu : c.isUpper with
  | false => rfl
  | true => have := toNat_of_isUpper hu; omega

theorem not_isDigit_of_isUpper {c : Char} (h : c.isUpper = true) : c.isDigit = false := by
  cases hd : c.isDigit with
  | false => rfl
  | true => rw [not_isUpper_of_isDigit hd] at h; cases h

theorem dropWhile_isUpper_append {l d : List Char} (hl : ∀ c ∈ l, c.isUpper = true)
    (hd : IsRun Char.isDigit d) : (l ++ d).dropWhile Char.isUpper = d := by
  induction l with
  | nil =>
    obtain ⟨hne, hall⟩ := hd
    cases d with
    | nil => exact absurd rfl hne
    | cons y ys =>
      simp [List.dropWhile, not_isUpper_of_isDigit (hall y (List.mem_cons_self _ _))]
  | cons x xs ih =>
    have hx := hl x (List.mem_cons_self _ _)
    simp only [List.cons_append, List.dropWhile, hx]
    exact ih (fun c hc => hl c (List.mem_cons_of_mem _ hc))

theorem refNumber_group {l d : List Char} (hl : IsRun Char.isUpper l)
    (hd : IsRun Char.isDigit d) : refNumber (String.mk (l ++ d)) = digitsVal d := by
  unfold refNumber
  show digitsVal ((l ++ d).dropWhile Char.isUpper) = _
  rw [dropWhile_isUpper_append hl.2 hd]

theorem parseInt_of_isUpper {c : Char} (cs : List Char) (h : c.isUpper = true) :
    parseInt (c :: cs) = .nan := by
  have hu := toNat_of_isUpper h
  have hws : isWhiteSpace c = false := by
    simp only [isWhiteSpace, decide_eq_false_iff_not]
    omega
  have h1 : c ≠ '-' := by rintro rfl; exact absurd h (by decide)
  have h2 : c ≠ '+' := by rintro rfl; exact absurd h (by decide)
  have h3 : c ≠ '0' := by rintro rfl; exact absurd h (by decide)
  have hdw : (c :: cs).dropWhile isWhiteSpace = c :: cs := by
    simp [List.dropWhile, hws]
  have hsign : takeSign (c :: cs) = (false, c :: cs) := by
    unfold takeSign
    split
    · rename_i heq; simp only [List.cons.injEq] at heq; exact absurd heq.1 h1
    · rename_i heq; simp only [List.cons.injEq] at heq; exact absurd heq.1 h2
    · rfl
  unfold parseInt
  rw [hdw, hsign]
  simp only
  split
  · rename_i r heq; simp only [List.cons.injEq] at heq; exact absurd heq.1 h3
  · rename_i r heq; simp only [List.cons.injEq] at heq; exact absurd heq.1 h3
  · simp [List.takeWhile, not_isDigit_of_isUpper h]

theorem refRow_group {l d : List Char} (hl : IsRun Char.isUpper l)
    (hd : IsRun Char.isDigit d) (hb : digitsVal d ≤ 2 ^ 53) :
    refRow (String.mk (l ++ d)) = .nan
      ∨ refRow (String.mk (l ++ d)) = .ofInt ((digitsVal d : Int) - 1) := by
  obtain ⟨hne, hall⟩ := hl
  cases l with
  | nil => exact absurd rfl hne
  | cons L rest =>
    have hL := hall L (List.mem_cons_self _ _)
    cases rest with
    | nil => exact Or.inr (refRow_exact hL hd hb)
    | cons L2 rest =>
      left
      have hL2 := hall L2 (List.mem_cons_of_mem _ (List.mem_cons_self _ _))
      have hlt : L.toNat < 0x10000 := by have := toNat_of_isUpper hL; omega
      unfold refRow
      simp only [String.toList, List.cons_append, hlt, if_true]
      rw [parseInt_of_isUpper _ hL2]
      rfl

theorem jsLe_nan_right (x : JSNum) : jsLe x .nan = false := by
  cases x <;> first | rfl | (rename_i s; cases s <;> rfl)

theorem jsLe_nan_left (x : JSNum) : jsLe .nan x = false := by
  cases x <;> first | rfl | (rename_i s; cases s <;> rfl)

theorem rowLoop_returns (startRow endRow : JSNum) (cols : List Int)
    (h : startRow = .nan ∨ endRow = .nan
      ∨ ∃ a b : Int, startRow = .ofInt a ∧ endRow = .ofInt b ∧ -(2 ^ 53) ≤ a ∧ b + 1 ≤ 2 ^ 53) :
    ∃ cells, rowLoop endRow cols (2 ^ 55) startRow [] = some cells := by
  have hfuel : (2 : Nat) ^ 55 = 36028797018963967 + 1 := by norm_num
  rcases h with rfl | rfl | ⟨a, b, rfl, rfl, ha, hb⟩
  · refine ⟨[], ?_⟩
    rw [hfuel]
    unfold rowLoop
    rw [jsLe_nan_left]
    rfl
  · refine ⟨[], ?_⟩
    rw [hfuel]
    unfold rowLoop
    rw [jsLe_nan_right]
    rfl
  · refine ⟨_, rowLoop_exact b cols hb _ a (2 ^ 55) [] rfl ha ?_⟩
    have h55 : (2 : Nat) ^ 55 = 36028797018963968 := by norm_num
    have h53 : (2 : Int) ^ 53 = 9007199254740992 := by norm_num
    omega

theorem parseRange_returns {l1 d1 l2 d2 : List Char}
    (hl1 : IsRun Char.isUpper l1) (hd1 : IsRun Char.isDigit d1)
    (hl2 : IsRun Char.isUpper l2) (hd2 : IsRun Char.isDigit d2)
    (h1 : digitsVal d1 ≤ 2 ^ 53) (h2 : digitsVal d2 ≤ 2 ^ 53) :
    ∃ cells, parseRange (String.mk (l1 ++ d1)) (String.mk (l2 ++ d2)) = some cells := by
  unfold parseRange
  apply rowLoop_returns
  rcases refRow_group hl1 hd1 h1 with e1 | e1
  · exact Or.inl e1
  · rcases refRow_group hl2 hd2 h2 with e2 | e2
    · exact Or.inr (Or.inl e2)
    · refine Or.inr (Or.inr ⟨_, _, e1, e2, ?_, ?_⟩)
      · omega
      · have : ((digitsVal d2 : Nat) : Int) ≤ 2 ^ 53 := by exact_mod_cast h2
        omega

theorem evaluateFormula_returns {grid : Grid} {formula : String}
    (h : ∀ a b, rangeMatch formula.toList = some (a, b) →
      refNumber a ≤ 2 ^ 53 ∧ refNumber b ≤ 2 ^ 53) :
    ∃ v, evaluateFormula grid formula = some v := by
  unfold evaluateFormula
  split
  · exact ⟨_, rfl⟩
  · cases hm : rangeMatch formula.toList with
    | none => exact ⟨_, rfl⟩
    | some m =>
      obtain ⟨a, b⟩ := m
      obtain ⟨l1, d1, l2, d2, rfl, rfl, hl1, hd1, hl2, hd2⟩ := rangeMatch_groups hm
      have hb := h _ _ hm
      rw [refNumber_group hl1 hd1, refNumber_group hl2 hd2] at hb
      obtain ⟨cells, hcells⟩ := parseRange_returns hl1 hd1 hl2 hd2 hb.1 hb.2
      simp only [hcells]
      cases cells.mapM (cellNumber grid) with
      | none => exact ⟨_, rfl⟩
      | some values =>
        simp only
        split
        · exact ⟨_, rfl⟩
        · split <;> exact ⟨_, rfl⟩


/-- C20 as stated fails beyond `2^53`: "=SUM(B9007199254740994:A9007199254740996)" starts
with "=", its rows decode to 9007199254740992 and 9007199254740996, no column lies
between B and A, and `row++` leaves 9007199254740992 as it is, so the loop of
`parseRange` pushes nothing and never exits: `evaluateFormula` returns no result. -/
theorem evaluation_never_returns_beyond_two_pow_53 :
    startsWith "=SUM(B9007199254740994:A9007199254740996)" "=" = true
    ∧ refRow "B9007199254740994" = .ofInt 9007199254740992
    ∧ refRow "A9007199254740996" = .ofInt 9007199254740996
    ∧ jsAdd (.ofInt 9007199254740992) one = .ofInt 9007199254740992
    ∧ evaluateFormula initialState.grid "=SUM(B9007199254740994:A9007199254740996)" = none := by
  refine ⟨?_, ?_, ?_, ?_, ?_⟩ <;> decide

/-- C20, amended: for every grid and every formula that starts with "=" and whose first
range reference (single letters, start not after end on both axes, row numbers of at
most `2^53`) contains a coordinate outside the grid, `evaluateFormula` returns "ERROR",
whatever the function name; and `evaluateFormula` returns a result for every grid and
every formula text whose first range reference, if it has one, has row numbers of at
most `2^53`. -/
theorem evaluation_failure_is_error (grid : Grid) (formula : String) :
    (∀ (L1 L2 : Char) (ds1 ds2 : List Char),
      startsWith formula "=" = true →
      rangeMatch formula.toList = some (String.mk (L1 :: ds1), String.mk (L2 :: ds2)) →
      L1.isUpper = true → L2.isUpper = true →
      IsRun Char.isDigit ds1 → IsRun Char.isDigit ds2 →
      L1.toNat ≤ L2.toNat → digitsVal ds1 ≤ digitsVal ds2 → digitsVal ds2 ≤ 2 ^ 53 →
      (∃ r c : Int, (digitsVal ds1 : Int) - 1 ≤ r ∧ r ≤ (digitsVal ds2 : Int) - 1
        ∧ (L1.toNat : Int) - 65 ≤ c ∧ c ≤ (L2.toNat : Int) - 65 ∧ ¬ grid.Has r c) →
      evaluateFormula grid formula = some (.str "ERROR"))
    ∧ ((∀ a b, rangeMatch formula.toList = some (a, b) →
          refNumber a ≤ 2 ^ 53 ∧ refNumber b ≤ 2 ^ 53) →
        ∃ v, evaluateFormula grid formula = some v) := by
  refine ⟨?_, evaluateFormula_returns⟩
  intro L1 L2 ds1 ds2 heq hmatch hL1 hL2 hd1 hd2 _ hrows hbound hout
  exact out_of_grid_is_error heq hmatch hL1 hL2 hd1 hd2 ⟨le_trans hrows hbound, hbound⟩ hout

/-- C20, witness: "=SUM(A20:B21)" on the initial grid of 20 rows: row 21 is outside. -/
theorem evaluation_failure_is_error_witness :
    evaluateFormula initialState.grid "=SUM(A20:B21)" = some (.str "ERROR")
    ∧ ∃ v, evaluateFormula initialState.grid "=SUM(A20:B21)" = some v :=
  ⟨(evaluation_failure_is_error initialState.grid "=SUM(A20:B21)").1 'A' 'B' ['2', '0']
      ['2', '1'] (by decide) (by decide) (by decide) (by decide) ⟨by decide, by decide⟩
      ⟨by decide, by decide⟩ (by decide) (by decide) (by decide)
      ⟨20, 0, by decide, by decide, by decide, by decide, by unfold Grid.Has; decide⟩,
   (evaluation_failure_is_error initialState.grid "=SUM(A20:B21)").2 (by
      intro a b h
      have e : rangeMatch "=SUM(A20:B21)".toList = some ("A20", "B21") := by decide
      rw [e] at h
      cases h
      exact ⟨by decide, by decide⟩)⟩


end Spreadsheet
